import Mathlib

/-!
Verification development for the Robust Bayesian Committee Machine (RBCM)
layer of the flare repository (src/flare/rbcm.py), a product-of-experts
ensemble of Gaussian-process force-field models.

The Python class `RobustBayesianCommitteeMachine` keeps parallel per-expert
container lists (`training_data`, `training_labels`, `training_labels_np`,
`n_envs_prev`, `training_structures`, `energy_labels`, `energy_labels_np`,
`all_labels`, `ky_mat`, `l_mat`, `alpha`, `ky_mat_inv`, `likelihood`).
These lists are created together in `__init__` and extended only together in
`add_container`, so they always have equal length; the embedding bundles the
i-th entry of each list into one `Expert` record and keeps the bundle list in
the model state.  Machine floats are embedded as rationals; the numerically
opaque external collaborators (the kernel evaluator of flare.kernels, numpy's
`log`, `cholesky` and `inv`, and the likelihood of flare.gp_algebra) enter as
explicit function parameters collected in `Params`.

Functions of flare.gp_algebra (`get_Ky_mat`, `get_ky_mat_update`,
`get_kernel_vector`, `get_like_from_mats`) are callers' dependencies that are
not part of the provided sources; they are modelled from the specification
text and marked as such in their doc comments.

Python methods mutate `self` in place and abort by raising; the embedding
returns the state reached at the point of the raise together with an optional
error value, so that partially-completed mutations remain observable.
-/

namespace RBCM

/-- A force label: the 3-component force vector on one atom. -/
abbrev Force3 := ℚ × ℚ × ℚ

/-- Matrices are dense row-major rational matrices (numpy 2-D arrays). -/
abbrev Mat := List (List ℚ)

/-- Dot product of two vectors (`np.matmul` of two 1-D arrays). -/
def dotQ (u v : List ℚ) : ℚ := (List.zipWith (· * ·) u v).sum

/-- Transpose of a row-major matrix. -/
def transposeM (M : Mat) : Mat :=
  (List.range (M.headD []).length).map (fun j => M.map (fun r => r.getD j 0))

/-- Matrix-vector product (`np.matmul` of a 2-D and a 1-D array). -/
def matVec (M : Mat) (v : List ℚ) : List ℚ := M.map (fun r => dotQ r v)

/-- Matrix-matrix product (`np.matmul` / `@` of two 2-D arrays). -/
def matMul (A B : Mat) : Mat := A.map (fun r => (transposeM B).map (fun c => dotQ r c))

/-- The identity matrix of a given size. -/
def idMat (n : Nat) : Mat :=
  (List.range n).map (fun i => (List.range n).map (fun j => if i = j then (1 : ℚ) else 0))

/-- Flattening of a list of 3-component force labels into one label vector
(`np.hstack` over a list of 3-vectors). -/
def flatForces : List Force3 → List ℚ
  | [] => []
  | (a, b, c) :: t => a :: b :: c :: flatForces t

/-- The structure handed to `update_db` (flare.struc.Structure, consumed
opaquely here): all the RBCM layer reads from it is its atom count and the
local environment constructed for each atom index. -/
structure Struc where
  positions : List (ℚ × ℚ × ℚ)
  deriving DecidableEq

/-- A local atomic environment (src/src/env.py); the RBCM layer consumes
environments opaquely, so only their identity matters: the structure they
were built from and the central atom index. -/
structure AtomicEnvironment where
  struc : Struc
  atom : Nat
  deriving DecidableEq

/-- Construction of the local environment of one atom
(`AtomicEnvironment(struc, atom, self.cutoffs, cutoffs_mask=self.hyps_mask)`). -/
def mkEnv (struc : Struc) (atom : Nat) : AtomicEnvironment := ⟨struc, atom⟩

/-- The i-th entry of every per-expert container list of the Python class,
bundled into one record. -/
structure Expert where
  training_data : List AtomicEnvironment
  training_labels : List Force3
  training_labels_np : List ℚ
  n_envs_prev : Nat
  training_structures : List (List AtomicEnvironment)
  energy_labels : List ℚ
  energy_labels_np : List ℚ
  all_labels : List ℚ
  ky_mat : Option Mat
  l_mat : Option Mat
  alpha : Option (List ℚ)
  ky_mat_inv : Option Mat
  likelihood : Option ℚ
  deriving DecidableEq

/-- The containers appended by one `add_container` call: empty stores,
zero-length label arrays (`np.empty(0,)`), and `None` matrices. -/
def emptyExpert : Expert :=
  { training_data := [], training_labels := [], training_labels_np := []
    n_envs_prev := 0, training_structures := [], energy_labels := []
    energy_labels_np := [], all_labels := []
    ky_mat := none, l_mat := none, alpha := none, ky_mat_inv := none
    likelihood := none }

/-- The mutable state of a `RobustBayesianCommitteeMachine`. -/
structure RBCMState where
  n_experts : Nat
  ndata_per_expert : Nat
  prior_variance : ℚ
  log_prior_var : ℚ
  current_expert : Nat
  experts : List Expert
  deriving DecidableEq

/-- Reading the i-th entry of the per-expert container lists.  In every state
reachable through the public interface the lists have length `n_experts` and
the read index is below it; out-of-range reads (which would raise in Python)
are mapped to the empty containers. -/
def expertAt (s : RBCMState) (i : Nat) : Expert := s.experts.getD i emptyExpert

/-- Writing the i-th entry of the per-expert container lists (the in-place
mutation of one expert's containers). -/
def setExpert (s : RBCMState) (i : Nat) (ex : Expert) : RBCMState :=
  { s with experts := s.experts.set i ex }

/-- External collaborators, passed in as opaque functions: the kernel
evaluator (force-force kernel `kff` and energy-force kernel `kef`, spec section 6),
numpy's natural log, Cholesky factorization and matrix inverse, the per-expert
log marginal likelihood, and the two noise hyperparameters entering the
covariance diagonal. -/
structure Params where
  kff : AtomicEnvironment → AtomicEnvironment → ℤ → ℤ → ℚ
  kef : AtomicEnvironment → List AtomicEnvironment → ℤ → ℚ
  log : ℚ → ℚ
  chol : Mat → Mat
  inv : Mat → Mat
  likeOf : Mat → Mat → List ℚ → ℚ
  forceNoise : ℚ
  energyNoise : ℚ

/-- `__init__`: records the committee parameters, caches
`log_prior_var = np.log(prior_variance)`, starts routing at expert 0 and
calls `add_container` once per initial expert. -/
def init (p : Params) (n_experts ndata_per_expert : Nat) (prior_variance : ℚ) : RBCMState :=
  { n_experts := n_experts, ndata_per_expert := ndata_per_expert
    prior_variance := prior_variance, log_prior_var := p.log prior_variance
    current_expert := 0
    experts := List.replicate n_experts emptyExpert }

/-- Python exceptions surfaced by the embedded methods. -/
inductive Err where
  | assertionError
  | attributeError
  | typeError
  | indexError
  | valueError
  deriving DecidableEq

/-- The expensive per-expert refresh operations performed by the
factorization-maintenance code: a full covariance rebuild
(`set_L_alpha_part`) or an incremental row update (the branch
`update_L_alpha` intends but never completes, since it raises TypeError at
its `sync_data` call; the constructor is kept to name the action the code
aims for). -/
inductive Action where
  | fullRebuild (i : Nat)
  | incrementalUpdate (i : Nat)
  deriving DecidableEq

/-- `find_expert_to_add`: return the current expert, first advancing
`current_expert` by one when the current expert's observation count exceeds
the per-expert capacity. -/
def find_expert_to_add (s : RBCMState) : Nat × RBCMState :=
  let eid := s.current_expert
  if s.ndata_per_expert < (expertAt s eid).n_envs_prev then
    (eid + 1, { s with current_expert := eid + 1 })
  else (eid, s)

/-- `add_container`: append one empty container to every per-expert list
(it does not touch `n_experts`; callers increment that separately). -/
def add_container (s : RBCMState) : RBCMState :=
  { s with experts := s.experts ++ [emptyExpert] }

/-- The container-creation step shared by `update_db` and `add_one_env`:
`if expert_id >= self.n_experts: self.add_container(); self.n_experts += 1`. -/
def ensureContainer (s : RBCMState) (eid : Nat) : RBCMState :=
  if s.n_experts ≤ eid then { add_container s with n_experts := s.n_experts + 1 } else s

/-- The per-atom loop of `update_db` when forces are given: for each atom
index, construct its environment, read its force (an out-of-range read
raises IndexError), and append environment and force to the target expert's
stores, incrementing that expert's observation count.  An out-of-range
expert id raises IndexError at the first container access. -/
def updForcesLoop (struc : Struc) (fs : List Force3) (eid : Nat) :
    List Nat → RBCMState → RBCMState × Option Err
  | [], s => (s, none)
  | atom :: rest, s =>
    let env := mkEnv struc atom
    match fs.get? atom with
    | none => (s, some Err.indexError)
    | some f =>
      match s.experts.get? eid with
      | none => (s, some Err.indexError)
      | some ex =>
        updForcesLoop struc fs eid rest
          (setExpert s eid
            { ex with training_data := ex.training_data ++ [env]
                      training_labels := ex.training_labels ++ [f]
                      n_envs_prev := ex.n_envs_prev + 1 })

/-- The final line of `update_db` and `add_one_env`: recompute the target
expert's concatenated label vector
`all_labels[eid] = np.concatenate((training_labels_np[eid], energy_labels_np[eid]))`. -/
def updAllLabels (s : RBCMState) (eid : Nat) : RBCMState × Option Err :=
  match s.experts.get? eid with
  | none => (s, some Err.indexError)
  | some ex =>
    (setExpert s eid { ex with all_labels := ex.training_labels_np ++ ex.energy_labels_np },
     none)

/-- The energy branch of `update_db` followed by the `all_labels` update:
when an energy is given, build the environments of all atoms of the
structure, append them as one structure entry together with the scalar
energy, and refresh the energy label array. -/
def updEnergyAndAll (struc : Struc) (noa : Nat) (energy : Option ℚ)
    (eid : Nat) (s : RBCMState) : RBCMState × Option Err :=
  match energy with
  | some en =>
    match s.experts.get? eid with
    | none => (s, some Err.indexError)
    | some ex =>
      let structure_list := (List.range noa).map (mkEnv struc)
      let ex1 := { ex with energy_labels := ex.energy_labels ++ [en]
                           training_structures := ex.training_structures ++ [structure_list] }
      let ex2 := { ex1 with energy_labels_np := ex1.energy_labels }
      updAllLabels (setExpert s eid ex2) eid
  | none => updAllLabels s eid

/-- The continuation of `update_db`'s forces branch after the per-atom loop:
on loop success, refresh the target expert's flattened force-label array
(`np.hstack(self.training_labels[eid])`, which raises IndexError on an
out-of-range expert id and ValueError on an empty label list) and proceed to
the energy branch and the `all_labels` update; a loop failure propagates. -/
def updHstackAndRest (struc : Struc) (noa : Nat) (energy : Option ℚ) (eid : Nat) :
    RBCMState × Option Err → RBCMState × Option Err
  | (s2, some e) => (s2, some e)
  | (s2, none) =>
    match s2.experts.get? eid with
    | none => (s2, some Err.indexError)
    | some ex =>
      if ex.training_labels.isEmpty then (s2, some Err.valueError)
      else
        updEnergyAndAll struc noa energy eid
          (setExpert s2 eid { ex with training_labels_np := flatForces ex.training_labels })

/-- The body of `update_db` after the routing decision: create a container
when the target id is not below `n_experts`, append the selected atoms'
environments and forces, refresh the flattened force-label array, process an
optional energy label, and refresh the concatenated label vector. -/
def update_db_routed (s0 : RBCMState) (struc : Struc) (forces : Option (List Force3))
    (custom_range : List Nat) (energy : Option ℚ) (eid : Nat) :
    RBCMState × Option Err :=
  let s1 := ensureContainer s0 eid
  let noa := struc.positions.length
  let update_indices := if custom_range.isEmpty then List.range noa else custom_range
  match forces with
  | some fs => updHstackAndRest struc noa energy eid (updForcesLoop struc fs eid update_indices s1)
  | none => updEnergyAndAll struc noa energy eid s1

/-- `update_db`: route (explicitly or through `find_expert_to_add`), then
run the routed body. -/
def update_db (s : RBCMState) (struc : Struc) (forces : Option (List Force3))
    (custom_range : List Nat) (energy : Option ℚ) (expert_id : Option Nat) :
    RBCMState × Option Err :=
  let r0 := match expert_id with
            | none => find_expert_to_add s
            | some e => (e, s)
  update_db_routed r0.2 struc forces custom_range energy r0.1

/-- The body of `add_one_env` after the routing decision: create a container
when needed, append one environment and its force label, refresh the
flattened force-label array and the observation count, and refresh the
concatenated label vector. -/
def add_one_env_routed (s0 : RBCMState) (env : AtomicEnvironment) (force : Force3)
    (eid : Nat) : RBCMState × Option Err :=
  let s1 := ensureContainer s0 eid
  match s1.experts.get? eid with
  | none => (s1, some Err.indexError)
  | some ex =>
    let ex1 := { ex with training_data := ex.training_data ++ [env]
                         training_labels := ex.training_labels ++ [force]
                         training_labels_np := flatForces (ex.training_labels ++ [force])
                         n_envs_prev := ex.n_envs_prev + 1 }
    updAllLabels (setExpert s1 eid ex1) eid

/-- `add_one_env`: route, then run the routed body.  (The optional immediate
`train` call is outside this embedding.) -/
def add_one_env (s : RBCMState) (env : AtomicEnvironment) (force : Force3)
    (expert_id : Option Nat) : RBCMState × Option Err :=
  let r0 := match expert_id with
            | none => find_expert_to_add s
            | some e => (e, s)
  add_one_env_routed r0.2 env force r0.1

/-- Modelled from the spec: the labeled entries of one expert's covariance
matrix (spec section 3): three force rows per training environment (one per
Cartesian component) followed by one energy row per structure carrying an
energy label, so the matrix dimension is
`3*(number of environments) + (number of structures with energy)`. -/
inductive Entry where
  | force (e : AtomicEnvironment) (coord : ℤ)
  | energy (envs : List AtomicEnvironment)
  deriving DecidableEq

instance : Inhabited Entry := ⟨Entry.energy []⟩

/-- The three force entries of each training environment, in order. -/
def forceEntries : List AtomicEnvironment → List Entry
  | [] => []
  | e :: t => Entry.force e 1 :: Entry.force e 2 :: Entry.force e 3 :: forceEntries t

/-- All labeled entries of one expert, force entries first, then one energy
entry per stored structure. -/
def entriesOf (ex : Expert) : List Entry :=
  forceEntries ex.training_data ++ ex.training_structures.map Entry.energy

/-- Modelled from the spec: the pairwise covariance between two labeled
entries, delegated to the external kernel evaluator (force-force,
energy-force, or energy-energy blocks). -/
def entryKernel (p : Params) : Entry → Entry → ℚ
  | Entry.force a da, Entry.force b db => p.kff a b da db
  | Entry.force a da, Entry.energy envs => p.kef a envs da
  | Entry.energy envs, Entry.force b db => p.kef b envs db
  | Entry.energy envs, Entry.energy envs2 => (envs.map (fun e => p.kef e envs2 0)).sum

/-- The diagonal noise added for entry i (squared force noise on force rows,
squared energy noise on energy rows). -/
def noiseAt (p : Params) (es : List Entry) (i : Nat) : ℚ :=
  match es.getD i default with
  | Entry.force _ _ => p.forceNoise ^ 2
  | Entry.energy _ => p.energyNoise ^ 2

/-- Modelled from the spec: `get_Ky_mat` (flare.gp_algebra, not among the
provided sources) builds the dense covariance of one expert: the kernel over
all pairs of the expert's labeled entries plus a diagonal noise term. -/
def getKyMat (p : Params) (ex : Expert) : Mat :=
  let es := entriesOf ex
  (List.range es.length).map (fun i =>
    (List.range es.length).map (fun j =>
      entryKernel p (es.getD i default) (es.getD j default) +
        (if i = j then noiseAt p es i else 0)))

/-- Modelled from the spec: `get_ky_mat_update` (flare.gp_algebra, not among
the provided sources) enlarges a previously built covariance to the current
entry set, reusing the old block and computing only the new rows and
columns. -/
def getKyMatUpdate (p : Params) (ex : Expert) : Mat :=
  let es := entriesOf ex
  let prev := ex.ky_mat.getD []
  (List.range es.length).map (fun i =>
    (List.range es.length).map (fun j =>
      if i < prev.length ∧ j < prev.length then (prev.getD i []).getD j 0
      else
        entryKernel p (es.getD i default) (es.getD j default) +
          (if i = j then noiseAt p es i else 0)))

/-- The inverse covariance derived from the Cholesky factor in
`compute_one_matrices`: with `l_mat = cholesky(ky_mat)` and
`l_mat_inv = inv(l_mat)`, the inverse is `l_mat_inv.T @ l_mat_inv`. -/
def kyInvOf (p : Params) (ky : Mat) : Mat :=
  let li := p.inv (p.chol ky)
  matMul (transposeM li) li

/-- `compute_one_matrices`: given a covariance matrix, store it, its Cholesky
factor, the derived inverse and `alpha = ky_mat_inv @ all_labels`, and reset
the expert's cached size to its current environment count. -/
def compute_one_matrices (p : Params) (ky : Mat) (s : RBCMState) (eid : Nat) : RBCMState :=
  let ex := expertAt s eid
  let kyinv := kyInvOf p ky
  setExpert s eid
    { ex with ky_mat := some ky, l_mat := some (p.chol ky)
              alpha := some (matVec kyinv ex.all_labels), ky_mat_inv := some kyinv
              n_envs_prev := ex.training_data.length }

/-- `set_L_alpha_part`: full rebuild of one expert's covariance via
`get_Ky_mat`, followed by `compute_one_matrices` and the cached-likelihood
refresh (`get_like_from_mats` is modelled by the opaque `likeOf`). -/
def set_L_alpha_part (p : Params) (s : RBCMState) (eid : Nat) : RBCMState × List Action :=
  let s1 := compute_one_matrices p (getKyMat p (expertAt s eid)) s eid
  let ex := expertAt s1 eid
  let like := p.likeOf (ex.ky_mat.getD []) (ex.l_mat.getD []) (ex.alpha.getD [])
  (setExpert s1 eid { ex with likelihood := some like }, [Action.fullRebuild eid])

/-- `update_L_alpha`: fall back to a full rebuild when the expert's Cholesky
factor is `None` (the source's second disjunct,
`np.array(self.ky_mat[expert_id]) is np.array(None)`, compares the identity
of two freshly constructed arrays and is always false).  The intended
incremental branch first calls `self.sync_data(expert_id)`, but `sync_data`
is declared with no positional parameter, so that call raises TypeError
before `get_ky_mat_update` (modelled above, and never reached) or any state
mutation: the branch returns the untouched state with the error. -/
def update_L_alpha (p : Params) (s : RBCMState) (eid : Nat) :
    RBCMState × List Action × Option Err :=
  match (expertAt s eid).l_mat with
  | none =>
    let r := set_L_alpha_part p s eid
    (r.1, r.2, none)
  | some _ => (s, [], some Err.typeError)

/-- The per-expert loop body of `check_L_alpha` over a list of expert
indices.  For each index: an expert with no training environments makes the
whole method return immediately; `self.alpha is None` tests the per-expert
container list itself, which is created in `__init__` and never `None` in
any state reachable through the public interface, so that branch is dead and
the code falls through to `self.alpha[i].shape[0]`, which raises
AttributeError when the i-th alpha is `None`; otherwise the force-label
count `3*len(training_data[i])` is compared against the cached alpha length
to choose between the update path (`update_L_alpha`, whose incremental
branch raises TypeError, aborting the whole method with the state
untouched), the full per-expert rebuild, and no action. -/
def checkLoop (p : Params) : List Nat → RBCMState → RBCMState × List Action × Option Err
  | [], s => (s, [], none)
  | i :: rest, s =>
    let size3 := 3 * (expertAt s i).training_data.length
    if size3 = 0 then (s, [], none)
    else
      match (expertAt s i).alpha with
      | none => (s, [], some Err.attributeError)
      | some a =>
        if a.length < size3 then
          let su := update_L_alpha p s i
          match su.2.2 with
          | some e => (su.1, su.2.1, some e)
          | none =>
            let r := checkLoop p rest su.1
            (r.1, su.2.1 ++ r.2.1, r.2.2)
        else if size3 ≠ a.length then
          let su := set_L_alpha_part p s i
          let r := checkLoop p rest su.1
          (r.1, su.2 ++ r.2.1, r.2.2)
        else checkLoop p rest s

/-- `check_L_alpha`: refresh every expert's factorization as needed before a
prediction or likelihood computation.  (The `sync_data` call only rewrites
the process-wide registry handed to the out-of-process kernel workers and
has no effect on the model state embedded here.) -/
def check_L_alpha (p : Params) (s : RBCMState) : RBCMState × List Action × Option Err :=
  checkLoop p (List.range s.n_experts) s

/-- Modelled from the spec: `get_kernel_vector` (flare.gp_algebra, not among
the provided sources) evaluates the kernel between the query environment and
every labeled entry of one expert: three force components per training
environment followed by one energy entry per stored structure. -/
def get_kernel_vector (p : Params) (x : AtomicEnvironment) (d : ℤ) (ex : Expert) : List ℚ :=
  (entriesOf ex).map (fun e =>
    match e with
    | Entry.force b db => p.kff x b d db
    | Entry.energy envs => p.kef x envs d)

/-- The per-expert accumulation loop of `predict`: for each expert (paired
with its kernel vector), compute the expert mean `k_v . alpha`, the expert
variance `self_kern - (k_v @ ky_mat_inv) @ k_v` and the confidence weight
`beta = 0.5*(log_prior_var - log var)`, and accumulate the three running
sums.  A `None` alpha or inverse (an expert never factored) raises TypeError
inside `np.matmul`. -/
def combineLoop (p : Params) (x : AtomicEnvironment) (d : ℤ) (log_pv : ℚ) :
    List (List ℚ × Expert) → Except Err (ℚ × ℚ × ℚ)
  | [] => Except.ok (0, 0, 0)
  | pr :: rest =>
    match pr.2.alpha, pr.2.ky_mat_inv with
    | some a, some M =>
      (combineLoop p x d log_pv rest).map (fun acc =>
        let mean_k := dotQ pr.1 a
        let self_kern := p.kff x x d d
        let var_k := self_kern - dotQ (matVec (transposeM M) pr.1) pr.1
        let beta_k := (1/2 : ℚ) * (log_pv - p.log var_k)
        (beta_k / var_k * mean_k + acc.1, beta_k / var_k + acc.2.1, beta_k + acc.2.2))
    | _, _ => Except.error Err.typeError

/-- `predict`: assert the force component is 1, 2 or 3, build the per-expert
kernel vectors, refresh the factorizations through `check_L_alpha`, and
combine the per-expert means and variances by the robust product-of-experts
rule: the accumulated variance is corrected by `(1 - sum beta)/prior_variance`,
inverted, and used to scale the accumulated weighted mean. -/
def predict (p : Params) (s : RBCMState) (x : AtomicEnvironment) (d : ℤ) :
    RBCMState × Option (ℚ × ℚ) × Option Err :=
  if d = 1 ∨ d = 2 ∨ d = 3 then
    let k_v := (List.range s.n_experts).map (fun i => get_kernel_vector p x d (expertAt s i))
    let c := check_L_alpha p s
    match c.2.2 with
    | some e => (c.1, none, some e)
    | none =>
      let pairs := k_v.zip ((List.range s.n_experts).map (expertAt c.1))
      match combineLoop p x d s.log_prior_var pairs with
      | Except.error e => (c.1, none, some e)
      | Except.ok acc =>
        let var := acc.2.1 + (1 - acc.2.2) / s.prior_variance
        let pred_var := 1 / var
        (c.1, some (pred_var * acc.1, pred_var), none)
  else (s, none, some Err.assertionError)

/-- The emptiness guard at the top of `train`:
`if len(self.training_data) == 0 or len(self.training_labels) == 0: raise ...`.
Both `self.training_data` and `self.training_labels` are the per-expert
container lists (one entry per expert, each entry itself a list), so both
lengths equal the number of expert containers, not the number of labels. -/
def train_empty_guard_fires (s : RBCMState) : Bool :=
  s.experts.length == 0 || s.experts.length == 0

/-- A count of all labeled entries across all experts (force observations
and structure energy labels). -/
def totalLabeledEntries (s : RBCMState) : Nat :=
  (s.experts.map (fun ex => ex.training_labels.length + ex.energy_labels.length)).sum

/-- The supported-format list reported by `write_model`'s error message. -/
def supported_formats : List String := ["json", "pickle", "binary"]

/-- The default serialization format of `write_model`. -/
def default_format : String := "json"

/-- The observable outcome of `write_model`. -/
inductive WriteResult where
  | written (fname : String)
  | unsupportedFormatError (supported : List String)
  deriving DecidableEq

/-- Python's `str.lower()`, embedded character by character. -/
def strLower (s : String) : String := ⟨s.data.map Char.toLower⟩

/-- The format dispatch of `write_model` (the later of the two definitions in
the class body, which overrides the earlier one): a lowercased `json` format
raises the unsupported-format ValueError (the json branch body is commented
out in the source), `pickle` and `binary` write a pickle file, and anything
else raises the same unsupported-format ValueError. -/
def write_model (name format : String) : WriteResult :=
  if strLower format = "json" then WriteResult.unsupportedFormatError supported_formats
  else if strLower format = "pickle" ∨ strLower format = "binary" then
    WriteResult.written (name ++ ".pickle")
  else WriteResult.unsupportedFormatError supported_formats

/-- `set_L_alpha`: full rebuild of every expert's factorization, used after
hyperparameter optimization.  (The cached total likelihood is not part of
the embedded state.) -/
def set_L_alpha (p : Params) (s : RBCMState) : RBCMState :=
  (List.range s.n_experts).foldl (fun acc i => (set_L_alpha_part p acc i).1) s

/-- Stated from the specification text (claim C1): expert i's predictive
mean `mean_i = k_i . alpha_i`. -/
def spec_expert_mean (kv : List ℚ) (ex : Expert) : ℚ := dotQ kv (ex.alpha.getD [])

/-- Stated from the specification text (claim C1): expert i's predictive
variance `var_i = kernel(query, query) - k_i^T K_i^{-1} k_i`. -/
def spec_expert_var (p : Params) (x : AtomicEnvironment) (d : ℤ) (kv : List ℚ)
    (ex : Expert) : ℚ :=
  p.kff x x d d - dotQ (matVec (transposeM (ex.ky_mat_inv.getD [])) kv) kv

/-- Stated from the specification text (claim C1): the confidence weight
`beta_i = 0.5 * (log(prior_variance) - log(var_i))`. -/
def spec_beta (p : Params) (prior_variance var_i : ℚ) : ℚ :=
  (1/2 : ℚ) * (p.log prior_variance - p.log var_i)

/-- Stated from the specification text (claim C1): the robust
product-of-experts combination.  With per-expert means, variances and betas
as above, `total_var = sum (beta_i/var_i) + (1 - sum beta_i)/prior_variance`,
the returned variance is `1/total_var` and the returned mean is that
variance times `sum (beta_i/var_i * mean_i)`. -/
def spec_predict (p : Params) (s : RBCMState) (x : AtomicEnvironment) (d : ℤ) : ℚ × ℚ :=
  let pairs := (List.range s.n_experts).map
    (fun i => (get_kernel_vector p x d (expertAt s i), expertAt s i))
  let mv := pairs.map (fun pr => (spec_expert_mean pr.1 pr.2, spec_expert_var p x d pr.1 pr.2))
  let sumB := (mv.map (fun t => spec_beta p s.prior_variance t.2)).sum
  let sumBV := (mv.map (fun t => spec_beta p s.prior_variance t.2 / t.2)).sum
  let sumBVM := (mv.map (fun t => spec_beta p s.prior_variance t.2 / t.2 * t.1)).sum
  let total_var := sumBV + (1 - sumB) / s.prior_variance
  (1 / total_var * sumBVM, 1 / total_var)

/-- The state-mutating operations of the public RBCM interface, used to
express properties over arbitrary interleavings of calls. -/
inductive Op where
  | route
  | container
  | upd (struc : Struc) (forces : Option (List Force3)) (custom : List Nat)
        (energy : Option ℚ) (eid : Option Nat)
  | addEnv (env : AtomicEnvironment) (force : Force3) (eid : Option Nat)
  | check
  | setL
  | setLPart (i : Nat)
  | updLA (i : Nat)
  | computeMats (ky : Mat) (i : Nat)
  | predictOp (x : AtomicEnvironment) (d : ℤ)

/-- The state reached after one operation (for operations that raise, the
state at the point of the raise, matching Python's in-place mutation). -/
def applyOp (p : Params) (s : RBCMState) : Op → RBCMState
  | Op.route => (find_expert_to_add s).2
  | Op.container => add_container s
  | Op.upd struc forces custom energy eid => (update_db s struc forces custom energy eid).1
  | Op.addEnv env force eid => (add_one_env s env force eid).1
  | Op.check => (check_L_alpha p s).1
  | Op.setL => set_L_alpha p s
  | Op.setLPart i => (set_L_alpha_part p s i).1
  | Op.updLA i => (update_L_alpha p s i).1
  | Op.computeMats ky i => compute_one_matrices p ky s i
  | Op.predictOp x d => (predict p s x d).1

/-- The state reached after a sequence of operations. -/
def applyOps (p : Params) (ops : List Op) (s : RBCMState) : RBCMState :=
  ops.foldl (applyOp p) s

/-- The label consistency maintained for one expert: the flattened force
label array mirrors the force-label store, the energy label array mirrors
the energy-label store, and the concatenated label vector is the flattened
force labels followed by the energy labels. -/
def ExpertInv (ex : Expert) : Prop :=
  ex.training_labels_np = flatForces ex.training_labels ∧
  ex.energy_labels_np = ex.energy_labels ∧
  ex.all_labels = ex.training_labels_np ++ ex.energy_labels_np

instance (ex : Expert) : Decidable (ExpertInv ex) := by
  unfold ExpertInv; infer_instance

/-- Label consistency across all experts of a model state. -/
def LabelsInv (s : RBCMState) : Prop := ∀ ex ∈ s.experts, ExpertInv ex

instance (s : RBCMState) : Decidable (LabelsInv s) := by
  unfold LabelsInv; infer_instance

/-- The expert id that `update_db` and `add_one_env` write to: the explicit
id when one is passed, else the id chosen by the router. -/
def targetOf (s : RBCMState) (expert_id : Option Nat) : Nat :=
  match expert_id with
  | none => (find_expert_to_add s).1
  | some e => e

/-- The dimension-preservation property of the factorization collaborators:
inverting the Cholesky factor and squaring it back keeps the matrix
dimension, as numpy's `cholesky` and `inv` do on any square input. -/
def DimPreserving (p : Params) : Prop := ∀ m : Mat, (kyInvOf p m).length = m.length

section Helpers

lemma expertAt_setExpert_self {s : RBCMState} {i : Nat} (ex : Expert)
    (h : i < s.experts.length) : expertAt (setExpert s i ex) i = ex := by
  simp [expertAt, setExpert, List.getD_eq_getElem?_getD, List.getElem?_set_self h]

lemma expertAt_setExpert_ne {s : RBCMState} {i j : Nat} (ex : Expert) (h : i ≠ j) :
    expertAt (setExpert s i ex) j = expertAt s j := by
  simp [expertAt, setExpert, List.getD_eq_getElem?_getD, List.getElem?_set_ne h]

lemma setExpert_oob {s : RBCMState} {i : Nat} (ex : Expert)
    (h : s.experts.length ≤ i) : setExpert s i ex = s := by
  simp [setExpert, List.set_eq_of_length_le h]

lemma expertAt_oob {s : RBCMState} {i : Nat} (h : s.experts.length ≤ i) :
    expertAt s i = emptyExpert := by
  simp [expertAt, List.getD_eq_getElem?_getD, List.getElem?_eq_none h]

lemma expertAt_mem {s : RBCMState} {i : Nat} (h : i < s.experts.length) :
    expertAt s i ∈ s.experts := by
  rw [expertAt, List.getD_eq_getElem _ _ h]
  exact List.getElem_mem h

lemma lt_length_of_data_ne {s : RBCMState} {i : Nat}
    (h : (expertAt s i).training_data ≠ []) : i < s.experts.length := by
  by_contra hc
  push_neg at hc
  rw [expertAt_oob hc] at h
  exact h rfl

lemma setExpert_experts_length (s : RBCMState) (i : Nat) (ex : Expert) :
    (setExpert s i ex).experts.length = s.experts.length := by
  simp [setExpert]

lemma matVec_length (M : Mat) (v : List ℚ) : (matVec M v).length = M.length := by
  simp [matVec]

lemma get?_setExpert_self {s : RBCMState} {i : Nat} (ex : Expert)
    (h : i < s.experts.length) : (setExpert s i ex).experts.get? i = some ex :=
  List.get?_set_eq_of_lt _ h

lemma get?_setExpert_ne {s : RBCMState} {i j : Nat} (ex : Expert) (h : i ≠ j) :
    (setExpert s i ex).experts.get? j = s.experts.get? j :=
  List.get?_set_ne _ _ h

lemma setExpert_experts (s : RBCMState) (i : Nat) (ex : Expert) :
    (setExpert s i ex).experts = s.experts.set i ex := rfl

lemma setExpert_setExpert (s : RBCMState) (i : Nat) (ex1 ex2 : Expert) :
    (setExpert (setExpert s i ex1) i ex2).experts = s.experts.set i ex2 := by
  rw [setExpert_experts, setExpert_experts, List.set_set]

lemma length_forceEntries : ∀ l : List AtomicEnvironment,
    (forceEntries l).length = 3 * l.length
  | [] => rfl
  | _ :: t => by simp [forceEntries, length_forceEntries t]; ring

lemma length_entriesOf (ex : Expert) :
    (entriesOf ex).length = 3 * ex.training_data.length + ex.training_structures.length := by
  simp [entriesOf, length_forceEntries]

lemma length_getKyMat (p : Params) (ex : Expert) :
    (getKyMat p ex).length = (entriesOf ex).length := by
  simp [getKyMat]

lemma length_getKyMatUpdate (p : Params) (ex : Expert) :
    (getKyMatUpdate p ex).length = (entriesOf ex).length := by
  simp [getKyMatUpdate]

end Helpers

/-- Concrete collaborators used for the concrete evaluations below: a zero
kernel, zero noise, a zero log, and a factorization oracle that returns the
identity matrix of the input's dimension (so that the derived inverse has
the dimension of its input, as the real Cholesky-based factorization does). -/
def pW : Params :=
  { kff := fun _ _ _ _ => 0, kef := fun _ _ _ => 0, log := fun _ => 0
    chol := fun m => idMat m.length, inv := fun m => m, likeOf := fun _ _ _ => 0
    forceNoise := 0, energyNoise := 0 }

/-- A one-atom structure and its local environment, used in the concrete
states below. -/
def strucW : Struc := ⟨[(0, 0, 0)]⟩

/-- The environment of the single atom of `strucW`. -/
def envW : AtomicEnvironment := mkEnv strucW 0

/-- An expert holding one observation whose factorization was never
computed: data present, `alpha` (and the other matrices) still `None`. -/
def staleExpert : Expert :=
  { emptyExpert with training_data := [envW], training_labels := [(1, 2, 3)]
                     training_labels_np := [1, 2, 3], all_labels := [1, 2, 3]
                     n_envs_prev := 1 }

/-- A two-expert model whose first expert is empty and whose second expert
holds data with a stale (`None`) factorization. -/
def sEmptyFirst : RBCMState :=
  { n_experts := 2, ndata_per_expert := 10, prior_variance := 1, log_prior_var := 0
    current_expert := 0, experts := [emptyExpert, staleExpert] }

/-- A one-expert model whose expert holds data with a stale (`None`)
factorization. -/
def sStaleOnly : RBCMState :=
  { n_experts := 1, ndata_per_expert := 10, prior_variance := 1, log_prior_var := 0
    current_expert := 0, experts := [staleExpert] }

/-- Claim C2: the claimed per-expert refresh policy diverges from
`check_L_alpha` on two points.  First, an expert with zero labeled entries
makes the method return immediately (the loop body's early return), so a
later expert with data and a stale factorization is left untouched instead
of being refreshed.  Second, for an expert holding data whose `alpha` is
`None`, the method dereferences `self.alpha[i].shape` (the guard
`self.alpha is None` tests the container list, not the entry) and raises
AttributeError instead of performing the full rebuild. -/
theorem C2_check_L_alpha_policy_divergence :
    check_L_alpha pW sEmptyFirst = (sEmptyFirst, [], none) ∧
    (expertAt sEmptyFirst 1).training_data ≠ [] ∧
    (expertAt sEmptyFirst 1).alpha = none ∧
    check_L_alpha pW sStaleOnly = (sStaleOnly, [], some Err.attributeError) := by
  decide

/-- Claim C4: the emptiness guard of `train` tests the length of the
per-expert container lists, not the number of labels, so a freshly
initialized one-expert model with zero labeled entries passes the guard and
`train` proceeds into optimization instead of raising the empty-model
error. -/
theorem C4_train_empty_guard_miss :
    totalLabeledEntries (init pW 1 10 1) = 0 ∧
    train_empty_guard_fires (init pW 1 10 1) = false := by
  decide

/-- Claim C5 counterexample: `'json'` is in the supported-format list and is
the default format, yet `write_model` raises the unsupported-format error
for it. -/
theorem C5_counterexample_json_rejected :
    write_model "model" "json" = WriteResult.unsupportedFormatError supported_formats ∧
    "json" ∈ supported_formats ∧ default_format = "json" := by
  decide

/-- Claim C5 (amended): `write_model` raises the unsupported-format error
(reporting the list `['json', 'pickle', 'binary']`) exactly for the formats
whose lowercase form is neither `'pickle'` nor `'binary'`; in particular the
default format `'json'` raises it despite appearing in the reported list. -/
theorem C5_amended_write_model_formats (name format : String) :
    write_model name format = WriteResult.unsupportedFormatError supported_formats ↔
      ¬(strLower format = "pickle" ∨ strLower format = "binary") := by
  unfold write_model
  split_ifs with h1 h2
  · rw [h1]
    simp
  · simp [h2]
  · simp [h2]

lemma updLA_err (p : Params) (s : RBCMState) (i : Nat) :
    (update_L_alpha p s i).2.2 = none ∨
      (update_L_alpha p s i).2.2 = some Err.typeError := by
  unfold update_L_alpha
  cases (expertAt s i).l_mat with
  | none => exact Or.inl rfl
  | some lm => exact Or.inr rfl

lemma checkLoop_err (p : Params) : ∀ (L : List Nat) (s : RBCMState),
    (checkLoop p L s).2.2 = none ∨ (checkLoop p L s).2.2 = some Err.attributeError ∨
      (checkLoop p L s).2.2 = some Err.typeError
  | [], _ => Or.inl rfl
  | i :: rest, s => by
    unfold checkLoop
    by_cases h0 : 3 * (expertAt s i).training_data.length = 0
    · simp [h0]
    · simp only [h0, if_false]
      cases halpha : (expertAt s i).alpha with
      | none => simp
      | some a =>
        dsimp only
        by_cases h1 : a.length < 3 * (expertAt s i).training_data.length
        · rw [if_pos h1]
          cases hu : (update_L_alpha p s i).2.2 with
          | some e =>
            dsimp only
            rcases updLA_err p s i with h | h
            · rw [hu] at h
              cases h
            · rw [hu] at h
              injection h with h2
              subst h2
              simp
          | none =>
            dsimp only
            exact checkLoop_err p rest (update_L_alpha p s i).1
        · rw [if_neg h1]
          by_cases h2 : 3 * (expertAt s i).training_data.length ≠ a.length
          · rw [if_pos h2]
            exact checkLoop_err p rest (set_L_alpha_part p s i).1
          · rw [if_neg h2]
            exact checkLoop_err p rest s

lemma combineLoop_err (p : Params) (x : AtomicEnvironment) (d : ℤ) (lpv : ℚ) :
    ∀ (l : List (List ℚ × Expert)) (e : Err),
      combineLoop p x d lpv l = Except.error e → e = Err.typeError
  | [], e => by simp [combineLoop]
  | pr :: rest, e => by
    unfold combineLoop
    cases pr.2.alpha with
    | none => intro h; cases pr.2.ky_mat_inv <;> simpa using h.symm
    | some a =>
      cases pr.2.ky_mat_inv with
      | none => intro h; simpa using h.symm
      | some M =>
        cases hrest : combineLoop p x d lpv rest with
        | error e2 =>
          intro h
          simp only [hrest, Except.map] at h
          cases h
          exact combineLoop_err p x d lpv rest _ hrest
        | ok acc => intro h; simp [hrest, Except.map] at h

/-- Claim C8: `predict` begins with `assert d in [1, 2, 3]`, so for every
integer d outside that set it fails with the assertion error before
computing anything (the state is returned untouched), while for d in the
set the assertion error is never raised (any later failure is a different
error). -/
theorem C8_predict_d_validation (p : Params) (s : RBCMState)
    (x : AtomicEnvironment) (d : ℤ) :
    (¬(d = 1 ∨ d = 2 ∨ d = 3) → predict p s x d = (s, none, some Err.assertionError)) ∧
    ((d = 1 ∨ d = 2 ∨ d = 3) → (predict p s x d).2.2 ≠ some Err.assertionError) := by
  constructor
  · intro h
    unfold predict
    rw [if_neg h]
  · intro h
    unfold predict
    rw [if_pos h]
    rcases checkLoop_err p (List.range s.n_experts) s with hc | hc | hc <;>
      simp only [check_L_alpha] at * <;> rw [hc]
    · cases hcomb : combineLoop p x d s.log_prior_var
          (((List.range s.n_experts).map (fun i => get_kernel_vector p x d (expertAt s i))).zip
            ((List.range s.n_experts).map (expertAt (checkLoop p (List.range s.n_experts) s).1))) with
      | error e =>
        have := combineLoop_err p x d s.log_prior_var _ e hcomb
        subst this
        simp [hcomb]
      | ok acc => simp [hcomb]
    · simp
    · simp

/-- Witness for claim C8 at concrete inputs: d = 5 raises the assertion
error, d = 1 does not. -/
theorem C8_witness :
    predict pW (init pW 1 10 1) envW 5 = (init pW 1 10 1, none, some Err.assertionError) ∧
    (predict pW (init pW 1 10 1) envW 1).2.2 ≠ some Err.assertionError :=
  ⟨(C8_predict_d_validation pW (init pW 1 10 1) envW 5).1 (by decide),
   (C8_predict_d_validation pW (init pW 1 10 1) envW 1).2 (by decide)⟩

lemma combineLoop_ok (p : Params) (x : AtomicEnvironment) (d : ℤ) (lpv : ℚ) :
    ∀ (l : List (List ℚ × Expert)),
      (∀ pr ∈ l, pr.2.alpha.isSome ∧ pr.2.ky_mat_inv.isSome) →
      combineLoop p x d lpv l = Except.ok
        ((l.map (fun pr =>
            (1/2 : ℚ) * (lpv - p.log (spec_expert_var p x d pr.1 pr.2)) /
              spec_expert_var p x d pr.1 pr.2 * spec_expert_mean pr.1 pr.2)).sum,
         (l.map (fun pr =>
            (1/2 : ℚ) * (lpv - p.log (spec_expert_var p x d pr.1 pr.2)) /
              spec_expert_var p x d pr.1 pr.2)).sum,
         (l.map (fun pr =>
            (1/2 : ℚ) * (lpv - p.log (spec_expert_var p x d pr.1 pr.2)))).sum)
  | [], _ => by simp [combineLoop]
  | pr :: rest, hall => by
    obtain ⟨ha, hM⟩ := hall pr (List.mem_cons_self _ _)
    obtain ⟨a, ha'⟩ := Option.isSome_iff_exists.mp ha
    obtain ⟨M, hM'⟩ := Option.isSome_iff_exists.mp hM
    have ih := combineLoop_ok p x d lpv rest (fun q hq => hall q (List.mem_cons_of_mem _ hq))
    unfold combineLoop
    rw [ha', hM', ih]
    simp [Except.map, spec_expert_mean, spec_expert_var, ha', hM']

/-- Claim C1: for a model all of whose experts hold current factorizations
(so the refresh check is a no-op and every expert's alpha and inverse are
present, with at least one expert) and a valid force component, `predict`
returns exactly the robust product-of-experts combination stated by the
specification: per-expert mean `k_i . alpha_i`, per-expert variance
`kernel(query, query) - k_i^T K_i^{-1} k_i`, confidence weights
`beta_i = 0.5*(log(prior_variance) - log(var_i))`, total precision
`sum (beta_i/var_i) + (1 - sum beta_i)/prior_variance`, returned variance
its reciprocal, and returned mean that variance times
`sum (beta_i/var_i * mean_i)`. -/
theorem C1_predict_product_of_experts (p : Params) (s : RBCMState)
    (x : AtomicEnvironment) (d : ℤ)
    (hd : d = 1 ∨ d = 2 ∨ d = 3)
    (hcheck : check_L_alpha p s = (s, [], none))
    (hsome : ∀ ex ∈ s.experts, ex.alpha.isSome ∧ ex.ky_mat_inv.isSome)
    (hlen : s.experts.length = s.n_experts)
    (hlog : s.log_prior_var = p.log s.prior_variance)
    (hne : s.experts ≠ []) :
    predict p s x d = (s, some (spec_predict p s x d), none) := by
  unfold predict
  rw [if_pos hd]
  simp only [hcheck]
  rw [List.zip_map']
  have hall : ∀ pr ∈ (List.range s.n_experts).map
      (fun i => (get_kernel_vector p x d (expertAt s i), expertAt s i)),
      pr.2.alpha.isSome ∧ pr.2.ky_mat_inv.isSome := by
    intro pr hpr
    obtain ⟨i, hi, rfl⟩ := List.mem_map.mp hpr
    have hilt : i < s.experts.length := by
      rw [hlen]; exact List.mem_range.mp hi
    exact hsome _ (expertAt_mem hilt)
  rw [combineLoop_ok p x d s.log_prior_var _ hall]
  simp only [spec_predict, spec_beta, spec_expert_mean, spec_expert_var, List.map_map, hlog]
  rfl

/-- A one-expert model with a current factorization: one observation, a
3-dimensional label vector and matching cached matrices. -/
def exC1 : Expert :=
  { training_data := [envW], training_labels := [(1, 2, 3)], training_labels_np := [1, 2, 3]
    n_envs_prev := 1, training_structures := [], energy_labels := [], energy_labels_np := []
    all_labels := [1, 2, 3], ky_mat := some (idMat 3), l_mat := some (idMat 3)
    alpha := some [1, 2, 3], ky_mat_inv := some (idMat 3), likelihood := none }

/-- A model state holding `exC1` as its only expert. -/
def sC1 : RBCMState :=
  { n_experts := 1, ndata_per_expert := 10, prior_variance := 1, log_prior_var := 0
    current_expert := 0, experts := [exC1] }

/-- Witness for claim C1 at a concrete one-expert model. -/
theorem C1_witness :
    predict pW sC1 envW 1 = (sC1, some (spec_predict pW sC1 envW 1), none) :=
  C1_predict_product_of_experts pW sC1 envW 1 (by decide) (by decide) (by decide)
    (by decide) (by decide) (by decide)

section CurrentExpert

lemma cur_setExpert (s : RBCMState) (i : Nat) (ex : Expert) :
    (setExpert s i ex).current_expert = s.current_expert := rfl

lemma cur_compute (p : Params) (ky : Mat) (s : RBCMState) (i : Nat) :
    (compute_one_matrices p ky s i).current_expert = s.current_expert := rfl

lemma cur_setLPart (p : Params) (s : RBCMState) (i : Nat) :
    ((set_L_alpha_part p s i).1).current_expert = s.current_expert := rfl

lemma cur_updLA (p : Params) (s : RBCMState) (i : Nat) :
    ((update_L_alpha p s i).1).current_expert = s.current_expert := by
  unfold update_L_alpha
  cases (expertAt s i).l_mat <;> rfl

lemma cur_checkLoop (p : Params) : ∀ (L : List Nat) (s : RBCMState),
    ((checkLoop p L s).1).current_expert = s.current_expert
  | [], _ => rfl
  | i :: rest, s => by
    unfold checkLoop
    by_cases h0 : 3 * (expertAt s i).training_data.length = 0
    · rw [if_pos h0]
    · rw [if_neg h0]
      cases halpha : (expertAt s i).alpha with
      | none => simp
      | some a =>
        dsimp only
        by_cases h1 : a.length < 3 * (expertAt s i).training_data.length
        · simp only [if_pos h1]
          cases hu : (update_L_alpha p s i).2.2 with
          | some e =>
            dsimp only
            exact cur_updLA p s i
          | none =>
            dsimp only
            rw [cur_checkLoop p rest _, cur_updLA]
        · rw [if_neg h1]
          by_cases h2 : 3 * (expertAt s i).training_data.length ≠ a.length
          · simp only [if_pos h2]
            rw [cur_checkLoop p rest _, cur_setLPart]
          · rw [if_neg h2]
            exact cur_checkLoop p rest s

lemma cur_setL_fold (p : Params) : ∀ (L : List Nat) (s : RBCMState),
    ((L.foldl (fun acc i => (set_L_alpha_part p acc i).1) s)).current_expert =
      s.current_expert
  | [], _ => rfl
  | i :: rest, s => by
    simp only [List.foldl_cons]
    rw [cur_setL_fold p rest _, cur_setLPart]

lemma find_cur_le (s : RBCMState) :
    s.current_expert ≤ ((find_expert_to_add s).2).current_expert := by
  simp only [find_expert_to_add]
  split_ifs <;> simp

lemma find_ret_eq (s : RBCMState) :
    (find_expert_to_add s).1 = ((find_expert_to_add s).2).current_expert := by
  simp only [find_expert_to_add]
  split_ifs <;> rfl

lemma find_ret_ge (s : RBCMState) :
    s.current_expert ≤ (find_expert_to_add s).1 := by
  simp only [find_expert_to_add]
  split_ifs <;> simp

lemma find_nexp (s : RBCMState) :
    ((find_expert_to_add s).2).n_experts = s.n_experts := by
  simp only [find_expert_to_add]
  split_ifs <;> rfl

lemma cur_ensure (s : RBCMState) (eid : Nat) :
    (ensureContainer s eid).current_expert = s.current_expert := by
  unfold ensureContainer
  split_ifs <;> rfl

lemma cur_updLoop (struc : Struc) (fs : List Force3) (eid : Nat) :
    ∀ (l : List Nat) (s : RBCMState),
      ((updForcesLoop struc fs eid l s).1).current_expert = s.current_expert
  | [], _ => rfl
  | atom :: rest, s => by
    unfold updForcesLoop
    cases fs.get? atom with
    | none => rfl
    | some f =>
      cases s.experts.get? eid with
      | none => rfl
      | some ex => simp only []; rw [cur_updLoop struc fs eid rest _, cur_setExpert]

lemma cur_updAll (s : RBCMState) (eid : Nat) :
    ((updAllLabels s eid).1).current_expert = s.current_expert := by
  unfold updAllLabels
  cases s.experts.get? eid <;> rfl

lemma cur_updEnergy (struc : Struc) (noa : Nat) (energy : Option ℚ) (eid : Nat)
    (s : RBCMState) :
    ((updEnergyAndAll struc noa energy eid s).1).current_expert = s.current_expert := by
  unfold updEnergyAndAll
  cases energy with
  | none => exact cur_updAll s eid
  | some en =>
    cases s.experts.get? eid with
    | none => rfl
    | some ex => rw [cur_updAll, cur_setExpert]

lemma cur_updHstack (struc : Struc) (noa : Nat) (energy : Option ℚ) (eid : Nat) :
    ∀ r : RBCMState × Option Err,
      ((updHstackAndRest struc noa energy eid r).1).current_expert = (r.1).current_expert
  | (_, some _) => rfl
  | (s2, none) => by
    unfold updHstackAndRest
    dsimp only
    cases hg : s2.experts.get? eid with
    | none => simp only [hg]
    | some ex =>
      simp only [hg]
      split_ifs with hemp
      · rfl
      · rw [cur_updEnergy, cur_setExpert]

lemma cur_update_db (s : RBCMState) (struc : Struc) (forces : Option (List Force3))
    (custom : List Nat) (energy : Option ℚ) (eid? : Option Nat) :
    s.current_expert ≤ ((update_db s struc forces custom energy eid?).1).current_expert := by
  cases eid? with
  | some e =>
    unfold update_db update_db_routed
    cases forces with
    | none => dsimp only; rw [cur_updEnergy, cur_ensure]
    | some fs => dsimp only; rw [cur_updHstack, cur_updLoop, cur_ensure]
  | none =>
    unfold update_db update_db_routed
    cases forces with
    | none =>
      dsimp only
      rw [cur_updEnergy, cur_ensure]
      exact find_cur_le s
    | some fs =>
      dsimp only
      rw [cur_updHstack, cur_updLoop, cur_ensure]
      exact find_cur_le s

lemma cur_add_one_env (s : RBCMState) (env : AtomicEnvironment) (force : Force3)
    (eid? : Option Nat) :
    s.current_expert ≤ ((add_one_env s env force eid?).1).current_expert := by
  cases eid? with
  | some e =>
    unfold add_one_env add_one_env_routed
    dsimp only
    cases hg : (ensureContainer s e).experts.get? e with
    | none =>
      simp only [hg]
      rw [cur_ensure]
    | some ex =>
      simp only [hg]
      rw [cur_updAll, cur_setExpert, cur_ensure]
  | none =>
    unfold add_one_env add_one_env_routed
    dsimp only
    cases hg : (ensureContainer (find_expert_to_add s).2 (find_expert_to_add s).1).experts.get?
        (find_expert_to_add s).1 with
    | none =>
      simp only [hg]
      rw [cur_ensure]
      exact find_cur_le s
    | some ex =>
      simp only [hg]
      rw [cur_updAll, cur_setExpert, cur_ensure]
      exact find_cur_le s

lemma cur_check (p : Params) (s : RBCMState) :
    ((check_L_alpha p s).1).current_expert = s.current_expert :=
  cur_checkLoop p (List.range s.n_experts) s

lemma cur_predict (p : Params) (s : RBCMState) (x : AtomicEnvironment) (d : ℤ) :
    ((predict p s x d).1).current_expert = s.current_expert := by
  unfold predict
  split_ifs with hd
  · cases hc : (check_L_alpha p s).2.2 with
    | some e =>
      simp only [hc]
      exact cur_check p s
    | none =>
      simp only [hc]
      cases hcomb : combineLoop p x d s.log_prior_var
          (((List.range s.n_experts).map (fun i => get_kernel_vector p x d (expertAt s i))).zip
            ((List.range s.n_experts).map (expertAt (check_L_alpha p s).1))) with
      | error e => simp only [hcomb]; exact cur_check p s
      | ok acc => simp only [hcomb]; exact cur_check p s
  · rfl

lemma cur_applyOp (p : Params) (s : RBCMState) (op : Op) :
    s.current_expert ≤ (applyOp p s op).current_expert := by
  cases op with
  | route => exact find_cur_le s
  | container => exact le_refl _
  | upd struc forces custom energy eid => exact cur_update_db s struc forces custom energy eid
  | addEnv env force eid => exact cur_add_one_env s env force eid
  | check => exact le_of_eq (cur_check p s).symm
  | setL => exact le_of_eq (cur_setL_fold p (List.range s.n_experts) s).symm
  | setLPart i => exact le_of_eq (cur_setLPart p s i).symm
  | updLA i => exact le_of_eq (cur_updLA p s i).symm
  | computeMats ky i => exact le_refl _
  | predictOp x d => exact le_of_eq (cur_predict p s x d).symm

lemma cur_applyOps (p : Params) : ∀ (ops : List Op) (s : RBCMState),
    s.current_expert ≤ (applyOps p ops s).current_expert
  | [], _ => le_refl _
  | op :: rest, s =>
    le_trans (cur_applyOp p s op) (cur_applyOps p rest (applyOp p s op))

end CurrentExpert

/-- Claim C6: routing is monotonic.  The model's current-expert index never
decreases under any operation of the public interface, and across any
interleaving of operations two successive router calls return
non-decreasing expert ids. -/
theorem C6_routing_monotonic :
    (∀ (p : Params) (s : RBCMState) (op : Op),
      s.current_expert ≤ (applyOp p s op).current_expert) ∧
    (∀ (p : Params) (s : RBCMState) (ops : List Op),
      (find_expert_to_add s).1 ≤
        (find_expert_to_add (applyOps p ops (find_expert_to_add s).2)).1) := by
  refine ⟨cur_applyOp, fun p s ops => ?_⟩
  calc (find_expert_to_add s).1
      = ((find_expert_to_add s).2).current_expert := find_ret_eq s
    _ ≤ (applyOps p ops (find_expert_to_add s).2).current_expert :=
        cur_applyOps p ops (find_expert_to_add s).2
    _ ≤ (find_expert_to_add (applyOps p ops (find_expert_to_add s).2)).1 :=
        find_ret_ge _

section Creation

lemma nexp_setExpert (s : RBCMState) (i : Nat) (ex : Expert) :
    (setExpert s i ex).n_experts = s.n_experts := rfl

lemma nexp_updLoop (struc : Struc) (fs : List Force3) (eid : Nat) :
    ∀ (l : List Nat) (s : RBCMState),
      ((updForcesLoop struc fs eid l s).1).n_experts = s.n_experts
  | [], _ => rfl
  | atom :: rest, s => by
    unfold updForcesLoop
    cases fs.get? atom with
    | none => rfl
    | some f =>
      cases s.experts.get? eid with
      | none => rfl
      | some ex => exact nexp_updLoop struc fs eid rest _

lemma nexp_updAll (s : RBCMState) (eid : Nat) :
    ((updAllLabels s eid).1).n_experts = s.n_experts := by
  unfold updAllLabels
  cases s.experts.get? eid <;> rfl

lemma nexp_updEnergy (struc : Struc) (noa : Nat) (energy : Option ℚ) (eid : Nat)
    (s : RBCMState) :
    ((updEnergyAndAll struc noa energy eid s).1).n_experts = s.n_experts := by
  unfold updEnergyAndAll
  cases energy with
  | none => exact nexp_updAll s eid
  | some en =>
    cases s.experts.get? eid with
    | none => rfl
    | some ex => rw [nexp_updAll, nexp_setExpert]

lemma nexp_updHstack (struc : Struc) (noa : Nat) (energy : Option ℚ) (eid : Nat) :
    ∀ r : RBCMState × Option Err,
      ((updHstackAndRest struc noa energy eid r).1).n_experts = (r.1).n_experts
  | (_, some _) => rfl
  | (s2, none) => by
    unfold updHstackAndRest
    dsimp only
    cases hg : s2.experts.get? eid with
    | none => simp only [hg]
    | some ex =>
      simp only [hg]
      split_ifs with hemp
      · rfl
      · rw [nexp_updEnergy, nexp_setExpert]

lemma ensure_nexp_of_le {s : RBCMState} {eid : Nat} (h : s.n_experts ≤ eid) :
    (ensureContainer s eid).n_experts = s.n_experts + 1 := by
  unfold ensureContainer
  rw [if_pos h]

lemma ensure_experts_of_le {s : RBCMState} {eid : Nat} (h : s.n_experts ≤ eid) :
    (ensureContainer s eid).experts = s.experts ++ [emptyExpert] := by
  unfold ensureContainer
  rw [if_pos h]
  rfl

lemma find_experts (s : RBCMState) :
    ((find_expert_to_add s).2).experts = s.experts := by
  simp only [find_expert_to_add]
  split_ifs <;> rfl

end Creation

/-- Claim C7: whenever an automatically-routed `update_db` call's routed
expert id is not below `n_experts` (capacity overflow advanced the router
past the last existing expert), the call creates exactly one new expert:
`n_experts` increases by exactly 1, the creation step appends exactly one
container, and that container starts with zero observations, zero labels
and all factorization fields `None`. -/
theorem C7_overflow_creates_one_empty_expert (s : RBCMState) (struc : Struc)
    (forces : Option (List Force3)) (custom : List Nat) (energy : Option ℚ)
    (hover : s.n_experts ≤ (find_expert_to_add s).1) :
    ((update_db s struc forces custom energy none).1).n_experts = s.n_experts + 1 ∧
    (ensureContainer (find_expert_to_add s).2 (find_expert_to_add s).1).experts =
      s.experts ++ [emptyExpert] ∧
    emptyExpert.training_data = [] ∧ emptyExpert.training_labels = [] ∧
    emptyExpert.training_structures = [] ∧ emptyExpert.energy_labels = [] ∧
    emptyExpert.all_labels = [] ∧ emptyExpert.ky_mat = none ∧
    emptyExpert.l_mat = none ∧ emptyExpert.alpha = none ∧
    emptyExpert.ky_mat_inv = none := by
  have hover2 : ((find_expert_to_add s).2).n_experts ≤ (find_expert_to_add s).1 := by
    rw [find_nexp]; exact hover
  refine ⟨?_, ?_, rfl, rfl, rfl, rfl, rfl, rfl, rfl, rfl, rfl⟩
  · unfold update_db update_db_routed
    cases forces with
    | none =>
      dsimp only
      rw [nexp_updEnergy, ensure_nexp_of_le hover2, find_nexp]
    | some fs =>
      dsimp only
      rw [nexp_updHstack, nexp_updLoop, ensure_nexp_of_le hover2, find_nexp]
  · rw [ensure_experts_of_le hover2, find_experts]

/-- Witness state for claim C7: one expert at capacity overflow (two
observations against a capacity of one), so the router advances to expert
id 1 = n_experts. -/
def sC7 : RBCMState :=
  { n_experts := 1, ndata_per_expert := 1, prior_variance := 1, log_prior_var := 0
    current_expert := 0
    experts := [{ emptyExpert with training_data := [envW, envW]
                                   training_labels := [(1, 2, 3), (4, 5, 6)]
                                   training_labels_np := [1, 2, 3, 4, 5, 6]
                                   all_labels := [1, 2, 3, 4, 5, 6], n_envs_prev := 2 }] }

/-- Witness for claim C7 at the concrete overflowing model. -/
theorem C7_witness :
    ((update_db sC7 strucW (some [(7, 8, 9)]) [] none none).1).n_experts =
      sC7.n_experts + 1 ∧
    (ensureContainer (find_expert_to_add sC7).2 (find_expert_to_add sC7).1).experts =
      sC7.experts ++ [emptyExpert] := by
  have h := C7_overflow_creates_one_empty_expert sC7 strucW (some [(7, 8, 9)]) [] none
    (by decide)
  exact ⟨h.1, h.2.1⟩

lemma updLoop_oob (struc : Struc) (fs : List Force3) (eid : Nat) (s : RBCMState)
    (hg : s.experts.get? eid = none) :
    ∀ l : List Nat, l ≠ [] → updForcesLoop struc fs eid l s = (s, some Err.indexError)
  | [], h => absurd rfl h
  | atom :: rest, _ => by
    unfold updForcesLoop
    cases fs.get? atom with
    | none => rfl
    | some f => simp only [hg]

/-- Claim C10: for an explicit expert id passed to `update_db` or
`add_one_env`, an id equal to `n_experts` creates exactly one new expert
and the data lands in it, while an id strictly above `n_experts` appends
one empty container and increments `n_experts` first and only then fails
with IndexError at the container access — the failure is non-atomic. -/
theorem C10_explicit_expert_id (s : RBCMState) (env : AtomicEnvironment)
    (force : Force3) (struc : Struc) (en : ℚ)
    (forces : Option (List Force3)) (custom : List Nat) (energy : Option ℚ)
    (hlen : s.experts.length = s.n_experts) :
    ((add_one_env s env force (some s.n_experts)).2 = none ∧
     ((add_one_env s env force (some s.n_experts)).1).n_experts = s.n_experts + 1 ∧
     (((add_one_env s env force (some s.n_experts)).1).experts.get? s.n_experts).map
       Expert.training_data = some [env]) ∧
    ((update_db s struc none [] (some en) (some s.n_experts)).2 = none ∧
     ((update_db s struc none [] (some en) (some s.n_experts)).1).n_experts =
       s.n_experts + 1 ∧
     (((update_db s struc none [] (some en) (some s.n_experts)).1).experts.get?
       s.n_experts).map Expert.energy_labels = some [en]) ∧
    (∀ eid, s.n_experts < eid →
      (add_one_env s env force (some eid)).2 = some Err.indexError ∧
      ((add_one_env s env force (some eid)).1).n_experts = s.n_experts + 1 ∧
      ((add_one_env s env force (some eid)).1).experts = s.experts ++ [emptyExpert] ∧
      (update_db s struc forces custom energy (some eid)).2 = some Err.indexError ∧
      ((update_db s struc forces custom energy (some eid)).1).n_experts =
        s.n_experts + 1 ∧
      ((update_db s struc forces custom energy (some eid)).1).experts =
        s.experts ++ [emptyExpert]) := by
  have hs1e : (ensureContainer s s.n_experts).experts = s.experts ++ [emptyExpert] :=
    ensure_experts_of_le (le_refl _)
  have hs1n : (ensureContainer s s.n_experts).n_experts = s.n_experts + 1 :=
    ensure_nexp_of_le (le_refl _)
  have hget : (ensureContainer s s.n_experts).experts.get? s.n_experts = some emptyExpert := by
    rw [hs1e, ← hlen]
    exact List.get?_concat_length _ _
  have hlen1 : (ensureContainer s s.n_experts).experts.length = s.n_experts + 1 := by
    rw [hs1e, List.length_append, hlen]
    rfl
  have hset : ∀ ex1 : Expert,
      ((setExpert (ensureContainer s s.n_experts) s.n_experts ex1).experts.get?
        s.n_experts) = some ex1 := by
    intro ex1
    apply List.get?_set_eq_of_lt
    rw [hlen1]
    omega
  have hset2 : ∀ ex1 ex2 : Expert,
      ((setExpert (setExpert (ensureContainer s s.n_experts) s.n_experts ex1)
          s.n_experts ex2).experts.get? s.n_experts) = some ex2 := by
    intro ex1 ex2
    apply List.get?_set_eq_of_lt
    rw [setExpert_experts_length, hlen1]
    omega
  refine ⟨?_, ?_, ?_⟩
  · -- add_one_env at eid = n_experts
    unfold add_one_env add_one_env_routed
    dsimp only
    simp only [hget]
    unfold updAllLabels
    simp only [hset]
    refine ⟨trivial, hs1n, ?_⟩
    rw [hset2 _ _]
    rfl
  · -- update_db with an energy label at eid = n_experts
    unfold update_db update_db_routed
    dsimp only
    unfold updEnergyAndAll
    simp only [hget]
    unfold updAllLabels
    simp only [hset]
    refine ⟨trivial, hs1n, ?_⟩
    rw [hset2 _ _]
    rfl
  · -- any id strictly above n_experts: non-atomic IndexError
    intro eid hlt
    have hle : s.n_experts ≤ eid := le_of_lt hlt
    have he : (ensureContainer s eid).experts = s.experts ++ [emptyExpert] :=
      ensure_experts_of_le hle
    have hn : (ensureContainer s eid).n_experts = s.n_experts + 1 :=
      ensure_nexp_of_le hle
    have hnone : (ensureContainer s eid).experts.get? eid = none := by
      rw [he]
      apply List.get?_eq_none.mpr
      rw [List.length_append, hlen]
      simpa using hlt
    refine ⟨?_, ?_, ?_, ?_, ?_, ?_⟩
    · unfold add_one_env add_one_env_routed
      dsimp only
      simp only [hnone]
    · unfold add_one_env add_one_env_routed
      dsimp only
      simp only [hnone]
      exact hn
    · unfold add_one_env add_one_env_routed
      dsimp only
      simp only [hnone]
      exact he
    · unfold update_db update_db_routed
      dsimp only
      cases forces with
      | none =>
        unfold updEnergyAndAll
        cases energy with
        | none =>
          unfold updAllLabels
          simp only [hnone]
        | some en2 => simp only [hnone]
      | some fs =>
        cases hui : (if custom.isEmpty then List.range struc.positions.length else custom) with
        | nil =>
          simp only [hui]
          unfold updForcesLoop updHstackAndRest
          dsimp only
          simp only [hnone]
        | cons a t =>
          simp only [hui]
          rw [updLoop_oob struc fs eid _ hnone _ (by simp)]
          rfl
    · unfold update_db update_db_routed
      dsimp only
      cases forces with
      | none =>
        unfold updEnergyAndAll
        cases energy with
        | none =>
          unfold updAllLabels
          simp only [hnone]
          exact hn
        | some en2 =>
          simp only [hnone]
          exact hn
      | some fs =>
        cases hui : (if custom.isEmpty then List.range struc.positions.length else custom) with
        | nil =>
          simp only [hui]
          unfold updForcesLoop updHstackAndRest
          dsimp only
          simp only [hnone]
          exact hn
        | cons a t =>
          simp only [hui]
          rw [updLoop_oob struc fs eid _ hnone _ (by simp)]
          exact hn
    · unfold update_db update_db_routed
      dsimp only
      cases forces with
      | none =>
        unfold updEnergyAndAll
        cases energy with
        | none =>
          unfold updAllLabels
          simp only [hnone]
          exact he
        | some en2 =>
          simp only [hnone]
          exact he
      | some fs =>
        cases hui : (if custom.isEmpty then List.range struc.positions.length else custom) with
        | nil =>
          simp only [hui]
          unfold updForcesLoop updHstackAndRest
          dsimp only
          simp only [hnone]
          exact he
        | cons a t =>
          simp only [hui]
          rw [updLoop_oob struc fs eid _ hnone _ (by simp)]
          exact he

/-- Witness for claim C10 at a concrete one-expert model: adding at explicit
id 1 creates expert 1 and lands the data there; adding at explicit id 2
appends one empty container, increments `n_experts`, and fails with
IndexError. -/
theorem C10_witness :
    ((add_one_env sC1 envW (7, 8, 9) (some 1)).2 = none ∧
     ((add_one_env sC1 envW (7, 8, 9) (some 1)).1).n_experts = 2 ∧
     (((add_one_env sC1 envW (7, 8, 9) (some 1)).1).experts.get? 1).map
       Expert.training_data = some [envW]) ∧
    ((add_one_env sC1 envW (7, 8, 9) (some 2)).2 = some Err.indexError ∧
     ((add_one_env sC1 envW (7, 8, 9) (some 2)).1).experts =
       sC1.experts ++ [emptyExpert]) := by
  have h := C10_explicit_expert_id sC1 envW (7, 8, 9) strucW 5 none [] none (by decide)
  exact ⟨⟨h.1.1, h.1.2.1, h.1.2.2⟩, ⟨(h.2.2 2 (by decide)).1, (h.2.2 2 (by decide)).2.2.1⟩⟩

section LabelsInvariant

/-- The energy-label fields of one expert, untouched by the per-atom force
loop. -/
def projEnergy (ex : Expert) : List ℚ × List ℚ := (ex.energy_labels, ex.energy_labels_np)

lemma expertInv_empty : ExpertInv emptyExpert := ⟨rfl, rfl, rfl⟩

lemma length_of_get?_some {α : Type _} {l : List α} {j : Nat} {a : α}
    (h : l.get? j = some a) : j < l.length := by
  obtain ⟨h1, -⟩ := List.get?_eq_some.mp h
  exact h1

lemma mem_of_get?_some {α : Type _} {l : List α} {j : Nat} {a : α}
    (h : l.get? j = some a) : a ∈ l := by
  obtain ⟨h1, h2⟩ := List.get?_eq_some.mp h
  subst h2
  simpa using List.getElem_mem h1

lemma get?_append_singleton_ne {α : Type _} {l : List α} {x : α} {j : Nat}
    (h : j ≠ l.length) : (l ++ [x]).get? j = l.get? j := by
  rcases Nat.lt_or_ge j l.length with h1 | h1
  · rw [List.get?_eq_getElem?, List.get?_eq_getElem?, List.getElem?_append_left h1]
  · rw [List.get?_eq_getElem?, List.get?_eq_getElem?, List.getElem?_eq_none h1,
      List.getElem?_eq_none]
    simp only [List.length_append, List.length_singleton]
    omega

lemma labelsInv_of_get? {s : RBCMState}
    (h : ∀ j ex, s.experts.get? j = some ex → ExpertInv ex) : LabelsInv s := by
  intro ex hmem
  obtain ⟨j, hj⟩ := List.mem_iff_get?.mp hmem
  exact h j ex hj

lemma labelsInv_get {s : RBCMState} (hinv : LabelsInv s) {j : Nat} {ex : Expert}
    (h : s.experts.get? j = some ex) : ExpertInv ex := hinv ex (mem_of_get?_some h)

lemma ensure_inv {s0 : RBCMState} {e : Nat} (hinv : LabelsInv s0) :
    LabelsInv (ensureContainer s0 e) := by
  unfold ensureContainer
  split_ifs with hc
  · intro ex hmem
    rcases List.mem_append.mp hmem with h | h
    · exact hinv ex h
    · rw [List.mem_singleton.mp h]
      exact expertInv_empty
  · exact hinv

lemma ensure_length_le (s0 : RBCMState) (e : Nat) :
    (ensureContainer s0 e).experts.length ≤ s0.experts.length + 1 := by
  unfold ensureContainer
  split_ifs
  · simp [add_container]
  · exact Nat.le_succ _

lemma ensure_frame {s0 : RBCMState} {e : Nat} (hlen : s0.experts.length = s0.n_experts)
    (hle : e ≤ s0.experts.length) :
    ∀ j, j ≠ e → (ensureContainer s0 e).experts.get? j = s0.experts.get? j := by
  intro j hj
  unfold ensureContainer
  split_ifs with hc
  · have he : e = s0.experts.length := le_antisymm hle (hlen ▸ hc)
    exact get?_append_singleton_ne (fun hc2 => hj (hc2.trans he.symm))
  · rfl

lemma updLoop_length (struc : Struc) (fs : List Force3) (eid : Nat) :
    ∀ (l : List Nat) (s : RBCMState),
      ((updForcesLoop struc fs eid l s).1).experts.length = s.experts.length
  | [], _ => rfl
  | atom :: rest, s => by
    unfold updForcesLoop
    cases fs.get? atom with
    | none => rfl
    | some f =>
      cases s.experts.get? eid with
      | none => rfl
      | some ex =>
        rw [updLoop_length struc fs eid rest _, setExpert_experts_length]

lemma updLoop_frame2 (struc : Struc) (fs : List Force3) (eid : Nat) :
    ∀ (l : List Nat) (s : RBCMState) (j : Nat), j ≠ eid →
      ((updForcesLoop struc fs eid l s).1).experts.get? j = s.experts.get? j
  | [], _, _, _ => rfl
  | atom :: rest, s, j, h => by
    unfold updForcesLoop
    cases fs.get? atom with
    | none => rfl
    | some f =>
      cases s.experts.get? eid with
      | none => rfl
      | some ex =>
        rw [updLoop_frame2 struc fs eid rest _ j h]
        exact List.get?_set_ne _ _ (Ne.symm h)

lemma updLoop_energyFields (struc : Struc) (fs : List Force3) (eid : Nat) :
    ∀ (l : List Nat) (s : RBCMState),
      (((updForcesLoop struc fs eid l s).1).experts.get? eid).map projEnergy =
        (s.experts.get? eid).map projEnergy
  | [], _ => rfl
  | atom :: rest, s => by
    unfold updForcesLoop
    cases fs.get? atom with
    | none => rfl
    | some f =>
      cases hg : s.experts.get? eid with
      | none => rw [hg]
      | some ex =>
        have helt : eid < s.experts.length := length_of_get?_some hg
        rw [updLoop_energyFields struc fs eid rest _, get?_setExpert_self _ helt]
        rfl

lemma updEnergy_success (struc : Struc) (noa : Nat) (energy : Option ℚ) (e : Nat)
    (s : RBCMState) (ex : Expert)
    (hg : s.experts.get? e = some ex)
    (h1 : ex.training_labels_np = flatForces ex.training_labels)
    (h2 : ex.energy_labels_np = ex.energy_labels) :
    (updEnergyAndAll struc noa energy e s).2 = none ∧
    ∃ exf, (updEnergyAndAll struc noa energy e s).1.experts = s.experts.set e exf ∧
      ExpertInv exf := by
  have helt : e < s.experts.length := length_of_get?_some hg
  have hset : ∀ exx : Expert, (setExpert s e exx).experts.get? e = some exx := by
    intro exx
    exact List.get?_set_eq_of_lt _ helt
  cases energy with
  | none =>
    unfold updEnergyAndAll updAllLabels
    simp only [hg]
    exact ⟨trivial, _, rfl, h1, h2, rfl⟩
  | some en =>
    unfold updEnergyAndAll
    simp only [hg]
    unfold updAllLabels
    simp only [hset]
    exact ⟨trivial, _, setExpert_setExpert _ _ _ _, h1, rfl, rfl⟩

lemma update_db_routed_success (struc : Struc) (forces : Option (List Force3))
    (custom : List Nat) (energy : Option ℚ) (e : Nat) (s0 : RBCMState)
    (hlen : s0.experts.length = s0.n_experts) (hinv : LabelsInv s0)
    (hok : (update_db_routed s0 struc forces custom energy e).2 = none) :
    LabelsInv (update_db_routed s0 struc forces custom energy e).1 ∧
    (∀ j, j ≠ e →
      ((update_db_routed s0 struc forces custom energy e).1).experts.get? j =
        s0.experts.get? j) ∧
    (∃ exf, ((update_db_routed s0 struc forces custom energy e).1).experts.get? e =
        some exf ∧
      exf.all_labels = flatForces exf.training_labels ++ exf.energy_labels) := by
  cases forces with
  | none =>
    unfold update_db_routed at hok ⊢
    dsimp only at hok ⊢
    cases hg : (ensureContainer s0 e).experts.get? e with
    | none =>
      exfalso
      rw [List.get?_eq_getElem?] at hg
      unfold updEnergyAndAll updAllLabels at hok
      cases energy <;> simp [hg] at hok
    | some ex =>
      have hexInv := labelsInv_get (ensure_inv hinv) hg
      obtain ⟨-, exf, heq, hInvf⟩ := updEnergy_success struc struc.positions.length energy e
        (ensureContainer s0 e) ex hg hexInv.1 hexInv.2.1
      have helt : e < (ensureContainer s0 e).experts.length := length_of_get?_some hg
      have hele : e ≤ s0.experts.length := by
        have := ensure_length_le s0 e
        omega
      refine ⟨?_, ?_, ?_⟩
      · apply labelsInv_of_get?
        intro j ex2 hj
        rw [heq] at hj
        by_cases hje : j = e
        · subst hje
          rw [List.get?_set_eq_of_lt _ helt] at hj
          cases hj
          exact hInvf
        · rw [List.get?_set_ne _ _ (Ne.symm hje)] at hj
          exact labelsInv_get (ensure_inv hinv) hj
      · intro j hj
        rw [heq, List.get?_set_ne _ _ (Ne.symm hj)]
        exact ensure_frame hlen hele j hj
      · refine ⟨exf, ?_, ?_⟩
        · rw [heq]
          exact List.get?_set_eq_of_lt _ helt
        · obtain ⟨i1, i2, i3⟩ := hInvf
          rw [i3, i1, i2]
  | some fs =>
    unfold update_db_routed at hok ⊢
    dsimp only at hok ⊢
    cases hloop : updForcesLoop struc fs e
        (if custom.isEmpty then List.range struc.positions.length else custom)
        (ensureContainer s0 e) with
    | mk s2 err2 =>
      rw [hloop] at hok
      cases err2 with
      | some e2 => exact Option.noConfusion hok
      | none =>
        unfold updHstackAndRest at hok ⊢
        dsimp only at hok ⊢
        cases hg2 : s2.experts.get? e with
        | none =>
          simp only [hg2] at hok
          exact Option.noConfusion hok
        | some ex2 =>
          simp only [hg2] at hok ⊢
          cases hemp : ex2.training_labels.isEmpty with
          | true =>
            simp only [if_pos hemp] at hok
            exact Option.noConfusion hok
          | false =>
            have hempn : ¬(ex2.training_labels.isEmpty = true) := by simp [hemp]
            simp only [if_neg hempn] at hok
            rw [if_neg (show ¬(false = true) by decide)]
            have hEfields := updLoop_energyFields struc fs e
              (if custom.isEmpty then List.range struc.positions.length else custom)
              (ensureContainer s0 e)
            rw [hloop, hg2] at hEfields
            cases hg1 : (ensureContainer s0 e).experts.get? e with
            | none => rw [hg1] at hEfields; simp at hEfields
            | some ex1 =>
              rw [hg1] at hEfields
              simp only [Option.map_some', projEnergy, Option.some.injEq,
                Prod.mk.injEq] at hEfields
              have hex1Inv := labelsInv_get (ensure_inv hinv) hg1
              have h2 : ex2.energy_labels_np = ex2.energy_labels := by
                rw [hEfields.2, hEfields.1]
                exact hex1Inv.2.1
              have helt2 : e < s2.experts.length := length_of_get?_some hg2
              have hset2 : ∀ exx : Expert, (setExpert s2 e exx).experts.get? e = some exx := by
                intro exx
                exact List.get?_set_eq_of_lt _ helt2
              obtain ⟨hok2, exf, heq, hInvf⟩ := updEnergy_success struc struc.positions.length
                energy e (setExpert s2 e
                  { ex2 with training_labels_np := flatForces ex2.training_labels })
                { ex2 with training_labels_np := flatForces ex2.training_labels }
                (hset2 _) rfl h2
              have heq2 : (updEnergyAndAll struc struc.positions.length energy e
                  (setExpert s2 e
                    { ex2 with training_labels_np := flatForces ex2.training_labels })).1.experts =
                  s2.experts.set e exf := by
                rw [heq, setExpert_experts, List.set_set]
              have hLlen : s2.experts.length = (ensureContainer s0 e).experts.length := by
                have := updLoop_length struc fs e
                  (if custom.isEmpty then List.range struc.positions.length else custom)
                  (ensureContainer s0 e)
                rw [hloop] at this
                exact this
              have hLframe : ∀ j, j ≠ e → s2.experts.get? j =
                  (ensureContainer s0 e).experts.get? j := by
                intro j hj
                have := updLoop_frame2 struc fs e
                  (if custom.isEmpty then List.range struc.positions.length else custom)
                  (ensureContainer s0 e) j hj
                rw [hloop] at this
                exact this
              have hele : e ≤ s0.experts.length := by
                have h3 := ensure_length_le s0 e
                omega
              refine ⟨?_, ?_, ?_⟩
              · apply labelsInv_of_get?
                intro j ex3 hj
                rw [heq2] at hj
                by_cases hje : j = e
                · subst hje
                  rw [List.get?_set_eq_of_lt _ helt2] at hj
                  cases hj
                  exact hInvf
                · rw [List.get?_set_ne _ _ (Ne.symm hje), hLframe j hje] at hj
                  exact labelsInv_get (ensure_inv hinv) hj
              · intro j hj
                rw [heq2, List.get?_set_ne _ _ (Ne.symm hj), hLframe j hj]
                exact ensure_frame hlen hele j hj
              · refine ⟨exf, ?_, ?_⟩
                · rw [heq2]
                  exact List.get?_set_eq_of_lt _ helt2
                · obtain ⟨i1, i2, i3⟩ := hInvf
                  rw [i3, i1, i2]

lemma add_one_env_routed_success (env : AtomicEnvironment) (force : Force3) (e : Nat)
    (s0 : RBCMState)
    (hlen : s0.experts.length = s0.n_experts) (hinv : LabelsInv s0)
    (hok : (add_one_env_routed s0 env force e).2 = none) :
    LabelsInv (add_one_env_routed s0 env force e).1 ∧
    (∀ j, j ≠ e →
      ((add_one_env_routed s0 env force e).1).experts.get? j = s0.experts.get? j) ∧
    (∃ exf, ((add_one_env_routed s0 env force e).1).experts.get? e = some exf ∧
      exf.all_labels = flatForces exf.training_labels ++ exf.energy_labels) := by
  unfold add_one_env_routed at hok ⊢
  dsimp only at hok ⊢
  cases hg : (ensureContainer s0 e).experts.get? e with
  | none =>
    simp only [hg] at hok
    exact Option.noConfusion hok
  | some ex =>
    simp only [hg] at hok ⊢
    have hexInv := labelsInv_get (ensure_inv hinv) hg
    have helt : e < (ensureContainer s0 e).experts.length := length_of_get?_some hg
    have hset : ∀ exx : Expert,
        (setExpert (ensureContainer s0 e) e exx).experts.get? e = some exx := by
      intro exx
      exact List.get?_set_eq_of_lt _ helt
    unfold updAllLabels at hok ⊢
    simp only [hset] at hok ⊢
    have hele : e ≤ s0.experts.length := by
      have := ensure_length_le s0 e
      omega
    refine ⟨?_, ?_, ?_⟩
    · apply labelsInv_of_get?
      intro j ex2 hj
      rw [setExpert_setExpert] at hj
      by_cases hje : j = e
      · subst hje
        rw [List.get?_set_eq_of_lt _ helt] at hj
        cases hj
        exact ⟨rfl, hexInv.2.1, rfl⟩
      · rw [List.get?_set_ne _ _ (Ne.symm hje)] at hj
        exact labelsInv_get (ensure_inv hinv) hj
    · intro j hj
      rw [setExpert_setExpert, List.get?_set_ne _ _ (Ne.symm hj)]
      exact ensure_frame hlen hele j hj
    · have hsetB : ∀ ex1 ex2 : Expert,
          (setExpert (setExpert (ensureContainer s0 e) e ex1) e ex2).experts.get? e =
            some ex2 := by
        intro ex1 ex2
        rw [setExpert_setExpert]
        exact List.get?_set_eq_of_lt _ helt
      refine ⟨_, hsetB _ _, ?_⟩
      show flatForces (ex.training_labels ++ [force]) ++ ex.energy_labels_np =
          flatForces (ex.training_labels ++ [force]) ++ ex.energy_labels
      rw [hexInv.2.1]

end LabelsInvariant

/-- Claim C9: the concatenated label vector is maintained.  The invariant
`all_labels[e] = [flattened force labels of e, energy labels of e]` holds in
the initial state and after every completed `update_db` or `add_one_env`
mutation; the mutated call leaves every expert other than the target
untouched, and the target expert's concatenated label vector equals its
flattened force labels followed by its energy labels. -/
theorem C9_all_labels_invariant :
    (∀ (p : Params) (n cap : Nat) (pv : ℚ), LabelsInv (init p n cap pv)) ∧
    (∀ (s : RBCMState) (struc : Struc) (forces : Option (List Force3))
       (custom : List Nat) (energy : Option ℚ) (eid? : Option Nat),
      s.experts.length = s.n_experts → LabelsInv s →
      (update_db s struc forces custom energy eid?).2 = none →
      (LabelsInv (update_db s struc forces custom energy eid?).1 ∧
       (∀ j, j ≠ targetOf s eid? →
         ((update_db s struc forces custom energy eid?).1).experts.get? j =
           s.experts.get? j) ∧
       (∃ exf, ((update_db s struc forces custom energy eid?).1).experts.get?
           (targetOf s eid?) = some exf ∧
         exf.all_labels = flatForces exf.training_labels ++ exf.energy_labels))) ∧
    (∀ (s : RBCMState) (env : AtomicEnvironment) (force : Force3) (eid? : Option Nat),
      s.experts.length = s.n_experts → LabelsInv s →
      (add_one_env s env force eid?).2 = none →
      (LabelsInv (add_one_env s env force eid?).1 ∧
       (∀ j, j ≠ targetOf s eid? →
         ((add_one_env s env force eid?).1).experts.get? j = s.experts.get? j) ∧
       (∃ exf, ((add_one_env s env force eid?).1).experts.get? (targetOf s eid?) =
           some exf ∧
         exf.all_labels = flatForces exf.training_labels ++ exf.energy_labels))) := by
  refine ⟨?_, ?_, ?_⟩
  · intro p n cap pv ex hmem
    rw [List.eq_of_mem_replicate hmem]
    exact expertInv_empty
  · intro s struc forces custom energy eid? hlen hinv hok
    cases eid? with
    | some e =>
      exact update_db_routed_success struc forces custom energy e s hlen hinv hok
    | none =>
      have hlen0 : ((find_expert_to_add s).2).experts.length =
          ((find_expert_to_add s).2).n_experts := by
        rw [find_experts, find_nexp]
        exact hlen
      have hinv0 : LabelsInv (find_expert_to_add s).2 := by
        intro ex hmem
        rw [find_experts] at hmem
        exact hinv ex hmem
      have h := update_db_routed_success struc forces custom energy
        (find_expert_to_add s).1 (find_expert_to_add s).2 hlen0 hinv0 hok
      refine ⟨h.1, ?_, h.2.2⟩
      intro j hj
      have h2 := h.2.1 j hj
      rw [find_experts] at h2
      exact h2
  · intro s env force eid? hlen hinv hok
    cases eid? with
    | some e =>
      exact add_one_env_routed_success env force e s hlen hinv hok
    | none =>
      have hlen0 : ((find_expert_to_add s).2).experts.length =
          ((find_expert_to_add s).2).n_experts := by
        rw [find_experts, find_nexp]
        exact hlen
      have hinv0 : LabelsInv (find_expert_to_add s).2 := by
        intro ex hmem
        rw [find_experts] at hmem
        exact hinv ex hmem
      have h := add_one_env_routed_success env force (find_expert_to_add s).1
        (find_expert_to_add s).2 hlen0 hinv0 hok
      refine ⟨h.1, ?_, h.2.2⟩
      intro j hj
      have h2 := h.2.1 j hj
      rw [find_experts] at h2
      exact h2

/-- Witness for claim C9 at a concrete completed mutation on a freshly
initialized model. -/
theorem C9_witness :
    LabelsInv (update_db (init pW 1 10 1) strucW (some [(1, 2, 3)]) [] (some 5) none).1 ∧
    (∃ exf, ((update_db (init pW 1 10 1) strucW (some [(1, 2, 3)]) [] (some 5)
        none).1).experts.get? (targetOf (init pW 1 10 1) none) = some exf ∧
      exf.all_labels = flatForces exf.training_labels ++ exf.energy_labels) :=
  ⟨(C9_all_labels_invariant.2.1 (init pW 1 10 1) strucW (some [(1, 2, 3)]) [] (some 5) none
      (by decide) (by decide) (by decide)).1,
   (C9_all_labels_invariant.2.1 (init pW 1 10 1) strucW (some [(1, 2, 3)]) [] (some 5) none
      (by decide) (by decide) (by decide)).2.2⟩

section CheckIdempotence

lemma data_ne_of_size3 {s : RBCMState} {i : Nat}
    (h0 : ¬3 * (expertAt s i).training_data.length = 0) :
    (expertAt s i).training_data ≠ [] := by
  intro hnil
  exact h0 (by rw [hnil]; rfl)

lemma fields_compute (p : Params) (ky : Mat) (s : RBCMState) (i j : Nat) :
    (expertAt (compute_one_matrices p ky s i) j).training_data =
      (expertAt s j).training_data ∧
    (expertAt (compute_one_matrices p ky s i) j).training_structures =
      (expertAt s j).training_structures := by
  unfold compute_one_matrices
  rcases eq_or_ne i j with rfl | hne
  · by_cases h : i < s.experts.length
    · rw [expertAt_setExpert_self _ h]
      exact ⟨rfl, rfl⟩
    · rw [setExpert_oob _ (le_of_not_lt h)]
      exact ⟨rfl, rfl⟩
  · rw [expertAt_setExpert_ne _ hne]
    exact ⟨rfl, rfl⟩

lemma length_compute (p : Params) (ky : Mat) (s : RBCMState) (i : Nat) :
    (compute_one_matrices p ky s i).experts.length = s.experts.length := by
  unfold compute_one_matrices
  rw [setExpert_experts_length]

lemma fields_setLPart (p : Params) (s : RBCMState) (i j : Nat) :
    (expertAt ((set_L_alpha_part p s i).1) j).training_data =
      (expertAt s j).training_data ∧
    (expertAt ((set_L_alpha_part p s i).1) j).training_structures =
      (expertAt s j).training_structures := by
  unfold set_L_alpha_part
  dsimp only
  have hc := fields_compute p (getKyMat p (expertAt s i)) s i j
  set s1 := compute_one_matrices p (getKyMat p (expertAt s i)) s i with hs1
  rcases eq_or_ne i j with rfl | hne
  · by_cases h : i < s1.experts.length
    · rw [expertAt_setExpert_self _ h]
      exact hc
    · rw [setExpert_oob _ (le_of_not_lt h)]
      exact hc
  · rw [expertAt_setExpert_ne _ hne]
    exact hc

lemma length_setLPart (p : Params) (s : RBCMState) (i : Nat) :
    ((set_L_alpha_part p s i).1).experts.length = s.experts.length := by
  unfold set_L_alpha_part
  dsimp only
  rw [setExpert_experts_length, length_compute]

lemma fields_updLA (p : Params) (s : RBCMState) (i j : Nat) :
    (expertAt ((update_L_alpha p s i).1) j).training_data =
      (expertAt s j).training_data ∧
    (expertAt ((update_L_alpha p s i).1) j).training_structures =
      (expertAt s j).training_structures := by
  unfold update_L_alpha
  cases (expertAt s i).l_mat with
  | none => exact fields_setLPart p s i j
  | some lm => exact ⟨rfl, rfl⟩

lemma length_updLA (p : Params) (s : RBCMState) (i : Nat) :
    ((update_L_alpha p s i).1).experts.length = s.experts.length := by
  unfold update_L_alpha
  cases (expertAt s i).l_mat with
  | none => exact length_setLPart p s i
  | some lm => rfl

lemma alpha_compute (p : Params) (ky : Mat) (s : RBCMState) (i : Nat)
    (hlt : i < s.experts.length) :
    (expertAt (compute_one_matrices p ky s i) i).alpha =
      some (matVec (kyInvOf p ky) (expertAt s i).all_labels) := by
  unfold compute_one_matrices
  rw [expertAt_setExpert_self _ hlt]

lemma alpha_setLPart (p : Params) (s : RBCMState) (i : Nat) (hdim : DimPreserving p)
    (hlt : i < s.experts.length)
    (hstruct : (expertAt s i).training_structures = []) :
    ∃ v, (expertAt ((set_L_alpha_part p s i).1) i).alpha = some v ∧
      v.length = 3 * (expertAt s i).training_data.length := by
  unfold set_L_alpha_part
  dsimp only
  have hlt1 : i < (compute_one_matrices p (getKyMat p (expertAt s i)) s i).experts.length := by
    rw [length_compute]
    exact hlt
  rw [expertAt_setExpert_self _ hlt1]
  dsimp only
  rw [alpha_compute p _ s i hlt]
  refine ⟨_, rfl, ?_⟩
  rw [matVec_length, hdim, length_getKyMat, length_entriesOf, hstruct]
  simp

lemma alpha_updLA (p : Params) (s : RBCMState) (i : Nat) (hdim : DimPreserving p)
    (hlt : i < s.experts.length)
    (hstruct : (expertAt s i).training_structures = [])
    (hok : (update_L_alpha p s i).2.2 = none) :
    ∃ v, (expertAt ((update_L_alpha p s i).1) i).alpha = some v ∧
      v.length = 3 * (expertAt s i).training_data.length := by
  unfold update_L_alpha at hok ⊢
  cases hl : (expertAt s i).l_mat with
  | none => exact alpha_setLPart p s i hdim hlt hstruct
  | some lm =>
    rw [hl] at hok
    exact Option.noConfusion hok

lemma frame_compute (p : Params) (ky : Mat) (s : RBCMState) {i j : Nat} (h : i ≠ j) :
    expertAt (compute_one_matrices p ky s i) j = expertAt s j := by
  unfold compute_one_matrices
  rw [expertAt_setExpert_ne _ h]

lemma frame_setLPart (p : Params) (s : RBCMState) {i j : Nat} (h : i ≠ j) :
    expertAt ((set_L_alpha_part p s i).1) j = expertAt s j := by
  unfold set_L_alpha_part
  dsimp only
  rw [expertAt_setExpert_ne _ h]
  exact frame_compute p _ s h

lemma frame_updLA (p : Params) (s : RBCMState) {i j : Nat} (h : i ≠ j) :
    expertAt ((update_L_alpha p s i).1) j = expertAt s j := by
  unfold update_L_alpha
  cases (expertAt s i).l_mat with
  | none => exact frame_setLPart p s h
  | some lm => rfl

lemma checkLoop_frame (p : Params) : ∀ (L : List Nat) (s : RBCMState) (j : Nat), j ∉ L →
    expertAt ((checkLoop p L s).1) j = expertAt s j
  | [], _, _, _ => rfl
  | i :: rest, s, j, hj => by
    have hji : j ≠ i := fun h => hj (h ▸ List.mem_cons_self i rest)
    have hjr : j ∉ rest := fun h => hj (List.mem_cons_of_mem _ h)
    unfold checkLoop
    by_cases h0 : 3 * (expertAt s i).training_data.length = 0
    · rw [if_pos h0]
    · rw [if_neg h0]
      cases halpha : (expertAt s i).alpha with
      | none => rfl
      | some a =>
        dsimp only
        by_cases h1 : a.length < 3 * (expertAt s i).training_data.length
        · rw [if_pos h1]
          cases hu : (update_L_alpha p s i).2.2 with
          | some e =>
            dsimp only
            exact frame_updLA p s (Ne.symm hji)
          | none =>
            dsimp only
            rw [checkLoop_frame p rest _ j hjr]
            exact frame_updLA p s (Ne.symm hji)
        · rw [if_neg h1]
          by_cases h2 : 3 * (expertAt s i).training_data.length ≠ a.length
          · rw [if_pos h2]
            rw [checkLoop_frame p rest _ j hjr]
            exact frame_setLPart p s (Ne.symm hji)
          · rw [if_neg h2]
            exact checkLoop_frame p rest s j hjr

lemma checkLoop_fields (p : Params) : ∀ (L : List Nat) (s : RBCMState) (j : Nat),
    (expertAt ((checkLoop p L s).1) j).training_data = (expertAt s j).training_data ∧
    (expertAt ((checkLoop p L s).1) j).training_structures =
      (expertAt s j).training_structures
  | [], _, _ => ⟨rfl, rfl⟩
  | i :: rest, s, j => by
    unfold checkLoop
    by_cases h0 : 3 * (expertAt s i).training_data.length = 0
    · rw [if_pos h0]
      exact ⟨rfl, rfl⟩
    · rw [if_neg h0]
      cases halpha : (expertAt s i).alpha with
      | none => exact ⟨rfl, rfl⟩
      | some a =>
        dsimp only
        by_cases h1 : a.length < 3 * (expertAt s i).training_data.length
        · rw [if_pos h1]
          cases hu : (update_L_alpha p s i).2.2 with
          | some e =>
            dsimp only
            exact fields_updLA p s i j
          | none =>
            dsimp only
            have hr := checkLoop_fields p rest (update_L_alpha p s i).1 j
            have hf := fields_updLA p s i j
            exact ⟨hr.1.trans hf.1, hr.2.trans hf.2⟩
        · rw [if_neg h1]
          by_cases h2 : 3 * (expertAt s i).training_data.length ≠ a.length
          · rw [if_pos h2]
            have hr := checkLoop_fields p rest (set_L_alpha_part p s i).1 j
            have hu := fields_setLPart p s i j
            exact ⟨hr.1.trans hu.1, hr.2.trans hu.2⟩
          · rw [if_neg h2]
            exact checkLoop_fields p rest s j

lemma checkLoop_nexp (p : Params) : ∀ (L : List Nat) (s : RBCMState),
    ((checkLoop p L s).1).n_experts = s.n_experts
  | [], _ => rfl
  | i :: rest, s => by
    unfold checkLoop
    by_cases h0 : 3 * (expertAt s i).training_data.length = 0
    · rw [if_pos h0]
    · rw [if_neg h0]
      cases halpha : (expertAt s i).alpha with
      | none => rfl
      | some a =>
        dsimp only
        by_cases h1 : a.length < 3 * (expertAt s i).training_data.length
        · rw [if_pos h1]
          cases hu : (update_L_alpha p s i).2.2 with
          | some e =>
            dsimp only
            unfold update_L_alpha
            cases (expertAt s i).l_mat <;> rfl
          | none =>
            dsimp only
            rw [checkLoop_nexp p rest _]
            unfold update_L_alpha
            cases (expertAt s i).l_mat <;> rfl
        · rw [if_neg h1]
          by_cases h2 : 3 * (expertAt s i).training_data.length ≠ a.length
          · rw [if_pos h2]
            rw [checkLoop_nexp p rest _]
            rfl
          · rw [if_neg h2]
            exact checkLoop_nexp p rest s

lemma checkLoop_idem (p : Params) (hdim : DimPreserving p) : ∀ (L : List Nat) (s : RBCMState),
    L.Nodup →
    (∀ j ∈ L, (expertAt s j).training_structures = []) →
    (checkLoop p L s).2.2 = none →
    checkLoop p L ((checkLoop p L s).1) = ((checkLoop p L s).1, [], none)
  | [], _, _, _, _ => rfl
  | i :: rest, s, hnd, hst, herr => by
    obtain ⟨hni, hndr⟩ := List.nodup_cons.mp hnd
    by_cases h0 : 3 * (expertAt s i).training_data.length = 0
    · have hfirst : checkLoop p (i :: rest) s = (s, [], none) := by
        simp only [checkLoop]
        rw [if_pos h0]
      rw [hfirst]
      exact hfirst
    · have hlt : i < s.experts.length := lt_length_of_data_ne (data_ne_of_size3 h0)
      have hsti : (expertAt s i).training_structures = [] := hst i (List.mem_cons_self _ _)
      cases halpha : (expertAt s i).alpha with
      | none =>
        exfalso
        have hfirst : (checkLoop p (i :: rest) s).2.2 = some Err.attributeError := by
          simp only [checkLoop]
          rw [if_neg h0, halpha]
        rw [hfirst] at herr
        cases herr
      | some a =>
        by_cases h1 : a.length < 3 * (expertAt s i).training_data.length
        · cases hu : (update_L_alpha p s i).2.2 with
          | some e =>
            exfalso
            have hfirst : (checkLoop p (i :: rest) s).2.2 = some e := by
              simp only [checkLoop]
              rw [if_neg h0, halpha]
              dsimp only
              rw [if_pos h1, hu]
            rw [hfirst] at herr
            cases herr
          | none =>
          have hfirst : checkLoop p (i :: rest) s =
              ((checkLoop p rest (update_L_alpha p s i).1).1,
               (update_L_alpha p s i).2.1 ++
                 (checkLoop p rest (update_L_alpha p s i).1).2.1,
               (checkLoop p rest (update_L_alpha p s i).1).2.2) := by
            simp only [checkLoop]
            rw [if_neg h0, halpha]
            dsimp only
            rw [if_pos h1, hu]
          have herr2 : (checkLoop p rest (update_L_alpha p s i).1).2.2 = none := by
            rw [hfirst] at herr
            exact herr
          have hst2 : ∀ j ∈ rest,
              (expertAt (update_L_alpha p s i).1 j).training_structures = [] := by
            intro j hj
            rw [(fields_updLA p s i j).2]
            exact hst j (List.mem_cons_of_mem _ hj)
          have hih := checkLoop_idem p hdim rest (update_L_alpha p s i).1 hndr hst2 herr2
          obtain ⟨v, hv, hvlen⟩ := alpha_updLA p s i hdim hlt hsti hu
          rw [hfirst]
          show checkLoop p (i :: rest) (checkLoop p rest (update_L_alpha p s i).1).1 =
            ((checkLoop p rest (update_L_alpha p s i).1).1, [], none)
          have hfi : expertAt (checkLoop p rest (update_L_alpha p s i).1).1 i =
              expertAt (update_L_alpha p s i).1 i :=
            checkLoop_frame p rest _ i hni
          simp only [checkLoop]
          rw [hfi, (fields_updLA p s i i).1, if_neg h0, hv]
          dsimp only
          have hnlt : ¬(v.length < 3 * (expertAt s i).training_data.length) := by omega
          have hne2 : ¬(3 * (expertAt s i).training_data.length ≠ v.length) := by omega
          rw [if_neg hnlt, if_neg hne2]
          exact hih
        · by_cases h2 : 3 * (expertAt s i).training_data.length ≠ a.length
          · have hfirst : checkLoop p (i :: rest) s =
                ((checkLoop p rest (set_L_alpha_part p s i).1).1,
                 (set_L_alpha_part p s i).2 ++
                   (checkLoop p rest (set_L_alpha_part p s i).1).2.1,
                 (checkLoop p rest (set_L_alpha_part p s i).1).2.2) := by
              simp only [checkLoop]
              rw [if_neg h0, halpha]
              dsimp only
              rw [if_neg h1, if_pos h2]
            have herr2 : (checkLoop p rest (set_L_alpha_part p s i).1).2.2 = none := by
              rw [hfirst] at herr
              exact herr
            have hst2 : ∀ j ∈ rest,
                (expertAt (set_L_alpha_part p s i).1 j).training_structures = [] := by
              intro j hj
              rw [(fields_setLPart p s i j).2]
              exact hst j (List.mem_cons_of_mem _ hj)
            have hih := checkLoop_idem p hdim rest (set_L_alpha_part p s i).1 hndr hst2 herr2
            obtain ⟨v, hv, hvlen⟩ := alpha_setLPart p s i hdim hlt hsti
            rw [hfirst]
            show checkLoop p (i :: rest) (checkLoop p rest (set_L_alpha_part p s i).1).1 =
              ((checkLoop p rest (set_L_alpha_part p s i).1).1, [], none)
            have hfi : expertAt (checkLoop p rest (set_L_alpha_part p s i).1).1 i =
                expertAt (set_L_alpha_part p s i).1 i :=
              checkLoop_frame p rest _ i hni
            simp only [checkLoop]
            rw [hfi, (fields_setLPart p s i i).1, if_neg h0, hv]
            dsimp only
            have hnlt : ¬(v.length < 3 * (expertAt s i).training_data.length) := by omega
            have hne2 : ¬(3 * (expertAt s i).training_data.length ≠ v.length) := by omega
            rw [if_neg hnlt, if_neg hne2]
            exact hih
          · have hfirst : checkLoop p (i :: rest) s = checkLoop p rest s := by
              simp only [checkLoop]
              rw [if_neg h0, halpha]
              dsimp only
              rw [if_neg h1, if_neg h2]
            have herr2 : (checkLoop p rest s).2.2 = none := by
              rw [hfirst] at herr
              exact herr
            have hih := checkLoop_idem p hdim rest s hndr
              (fun j hj => hst j (List.mem_cons_of_mem _ hj)) herr2
            rw [hfirst]
            have hfi : expertAt (checkLoop p rest s).1 i = expertAt s i :=
              checkLoop_frame p rest s i hni
            simp only [checkLoop]
            rw [hfi, if_neg h0, halpha]
            dsimp only
            rw [if_neg h1, if_neg h2]
            exact hih

end CheckIdempotence

/-- Claim C3 counterexample: an expert that carries a structure-energy label
in addition to its force labels makes every `check_L_alpha` call perform a
full per-expert rebuild.  The cached alpha has length
`3*(#environments) + (#energy labels)`, while the check compares it against
`3*(#environments)` only, so the comparison fails on every call: two
consecutive calls with no data mutation both perform the expensive rebuild,
refuting the at-most-one-rebuild claim. -/
def exC3 : Expert :=
  { training_data := [envW], training_labels := [(1, 0, 0)]
    training_labels_np := [1, 0, 0], n_envs_prev := 1
    training_structures := [[envW]], energy_labels := [5], energy_labels_np := [5]
    all_labels := [1, 0, 0, 5]
    ky_mat := some (idMat 4), l_mat := some (idMat 4)
    alpha := some [0, 0, 0, 0], ky_mat_inv := some (idMat 4), likelihood := none }

/-- A one-expert model holding `exC3` (one force-labeled environment plus
one structure-energy label, factorization current). -/
def sC3 : RBCMState :=
  { n_experts := 1, ndata_per_expert := 10, prior_variance := 1, log_prior_var := 0
    current_expert := 0, experts := [exC3] }

/-- Claim C3 is refuted on `sC3`: both the first and the second
`check_L_alpha` call perform a full rebuild of expert 0, although no data
mutation happened in between. -/
theorem C3_counterexample_energy_rebuild :
    (check_L_alpha pW sC3).2.2 = none ∧
    (check_L_alpha pW sC3).2.1 = [Action.fullRebuild 0] ∧
    (check_L_alpha pW ((check_L_alpha pW sC3).1)).2.1 = [Action.fullRebuild 0] := by
  decide

/-- Claim C3 (amended): for a model whose experts carry only force labels
(no structure-energy labels), a `check_L_alpha` call that completes without
error is idempotent: the second of two consecutive calls with no data
mutation in between performs no rebuild and returns every expert's
covariance matrix, Cholesky factor, inverse and alpha vector unchanged.
For an expert with structure-energy labels the size comparison
(`3*len(training_data[i])` against `len(alpha[i])`) fails on every call, so
each call performs a full per-expert rebuild and the at-most-one-rebuild
bound does not hold (see the counterexample). -/
theorem C3_amended_check_idempotent (p : Params) (s : RBCMState)
    (hdim : DimPreserving p)
    (hstruct : ∀ ex ∈ s.experts, ex.training_structures = [])
    (hok : (check_L_alpha p s).2.2 = none) :
    check_L_alpha p ((check_L_alpha p s).1) = ((check_L_alpha p s).1, [], none) := by
  unfold check_L_alpha at hok ⊢
  have hn : ((checkLoop p (List.range s.n_experts) s).1).n_experts = s.n_experts :=
    checkLoop_nexp p _ s
  rw [hn]
  apply checkLoop_idem p hdim _ s (List.nodup_range _) _ hok
  intro j hj
  by_cases h : j < s.experts.length
  · exact hstruct _ (expertAt_mem h)
  · rw [expertAt_oob (le_of_not_lt h)]
    rfl

lemma matMul_length (A B : Mat) : (matMul A B).length = A.length := by
  simp [matMul]

lemma transposeM_length (M : Mat) : (transposeM M).length = (M.headD []).length := by
  simp [transposeM]

lemma idMat_head_length (n : Nat) : ((idMat n).headD []).length = n := by
  cases n with
  | zero => rfl
  | succ k => simp [idMat, List.range_succ_eq_map]

lemma pW_dimPreserving : DimPreserving pW := by
  intro m
  unfold kyInvOf
  dsimp only [pW]
  rw [matMul_length, transposeM_length, idMat_head_length]

/-- A force-only expert whose cached alpha is stale (wrong length), so the
first `check_L_alpha` call rebuilds it. -/
def exC3w : Expert :=
  { training_data := [envW], training_labels := [(1, 2, 3)]
    training_labels_np := [1, 2, 3], n_envs_prev := 1
    training_structures := [], energy_labels := [], energy_labels_np := []
    all_labels := [1, 2, 3]
    ky_mat := some (idMat 4), l_mat := some (idMat 4)
    alpha := some [0, 0, 0, 0], ky_mat_inv := some (idMat 4), likelihood := none }

/-- A one-expert force-only model holding `exC3w`. -/
def sC3w : RBCMState :=
  { n_experts := 1, ndata_per_expert := 10, prior_variance := 1, log_prior_var := 0
    current_expert := 0, experts := [exC3w] }

/-- Witness for the amended claim C3: on the concrete force-only model the
first call rebuilds and the second call is a no-op. -/
theorem C3_witness :
    check_L_alpha pW ((check_L_alpha pW sC3w).1) = ((check_L_alpha pW sC3w).1, [], none) :=
  C3_amended_check_idempotent pW sC3w pW_dimPreserving (by decide) (by decide)

end RBCM
